import Mathlib

/-!
# Verification of the docker-discord-bot-manager compose/registry engine

This file gives a shallow embedding, in Lean 4, of the core components of the
bot manager: the variable-substitution routine, the PCS/CasaOS compose
transforms, the per-bot log collector, the container-manager operations
(build / start / stop / pull-and-rebuild) with their registry and
log-collector effects, the serialized registry write queue, and the
`updateBot` registry update.  Text is modelled as `List Char` throughout
(JS strings), so that every definition is executable and every concrete
test case can be settled by `decide` or `rfl`.

Each embedded definition is translated from the TypeScript source; doc
comments name the source function.  Theorems about the embedding follow at
the end of the file.
-/

set_option maxHeartbeats 1000000

namespace BotMgr

/-- JS strings are modelled as lists of characters. -/
abbrev Str := List Char

/-- Coerce a Lean string literal to the `Str` model. -/
def str (s : String) : Str := s.data

/-- Identifier characters for placeholder names: the class `[A-Za-z0-9_]`
used by the substitution regexes in `variableSubstitution.ts`. -/
def identChar (c : Char) : Bool :=
  (('A' ≤ c && c ≤ 'Z') || ('a' ≤ c && c ≤ 'z') || ('0' ≤ c && c ≤ '9') || c = '_')

/-- JS-object assignment `obj[k] = v` on an association list: if the exact
key is present its value is replaced in place, otherwise the pair is
appended (JS objects preserve insertion order). -/
def objSet (l : List (Str × Str)) (k v : Str) : List (Str × Str) :=
  match l with
  | [] => [(k, v)]
  | (k', v') :: rest =>
    if k' = k then (k', v) :: rest else (k', v') :: objSet rest k v

/-- JS object spread `{...a, ...b}`: every pair of `b` is assigned onto `a`
in order. -/
def objMerge (a b : List (Str × Str)) : List (Str × Str) :=
  b.foldl (fun acc kv => objSet acc kv.1 kv.2) a

/-- First value bound to a key in an association list (JS property read). -/
def objGet (l : List (Str × Str)) (k : Str) : Option Str :=
  match l with
  | [] => none
  | (k', v') :: rest => if k' = k then some v' else objGet rest k

-- ─── Log collector (src/build/logCollector.ts) ────────────────────────────

/-- Severity tags of `BuildLogEntry.type`. -/
inductive Severity where
  | system | info | warning | severError | success
deriving DecidableEq, Repr

/-- `BuildLogEntry` from `logCollector.ts`: message, severity and timestamp. -/
structure BuildLogEntry where
  message : Str
  sev : Severity
  timestamp : Nat
deriving DecidableEq, Repr

/-- `LogCollector.maxLogs` (2000). -/
def maxLogs : Nat := 2000

/-- `LogCollector.addLog`: push the entry, then
`if (logs.length > maxLogs) logs.splice(0, logs.length - maxLogs)`,
i.e. drop the oldest entries so that at most `maxLogs` remain. -/
def addLog (logs : List BuildLogEntry) (e : BuildLogEntry) : List BuildLogEntry :=
  let l := logs ++ [e]
  if l.length > maxLogs then l.drop (l.length - maxLogs) else l

/-- `LogCollector.clear`: `logs = []`. -/
def clearLogs (_logs : List BuildLogEntry) : List BuildLogEntry := []

/-- `LogCollector.getLogs`: returns (a copy of) the buffered entries. -/
def getLogs (logs : List BuildLogEntry) : List BuildLogEntry := logs

-- ─── Bot registry data model (src/types.ts) ───────────────────────────────

/-- `BotStatus`. -/
inductive BotStatus where
  | stopped | starting | running | stopping | statError | building
deriving DecidableEq, Repr

/-- `BotSourceType`. -/
inductive BotSourceType where
  | git | dockerImage
deriving DecidableEq, Repr

/-- `BotConfig` from `types.ts` (fields used by the modelled operations). -/
structure Bot where
  id : Str
  name : Str
  sourceType : BotSourceType
  url : Option Str
  branch : Option Str
  imageRef : Option Str
  status : BotStatus
  containerIds : List Str
  updateToken : Option Str
  authHash : Option Str
  envVars : List (Str × Str)
  hasBeenStarted : Option Bool
  appName : Option Str
  createdAt : Str
  updatedAt : Str
deriving DecidableEq, Repr

/-- The bot registry file `bots.json`, as a map from id to config
(`registry.bots[botId]` reads are modelled as function application). -/
def Registry := Str → Option Bot

/-- `registry.bots[botId] = bot`. -/
def Registry.set (r : Registry) (id : Str) (b : Bot) : Registry :=
  fun k => if k = id then some b else r k

-- ─── updateBot (containerManager.ts) ──────────────────────────────────────

/-- `UpdateBotRequest`. -/
structure UpdateBotRequest where
  name : Option Str
  branch : Option Str
  envVars : Option (List (Str × Str))
deriving Repr

/-- JS truthiness of an optional string field (`if (update.name)`):
present and non-empty. -/
def truthyStr : Option Str → Bool
  | none => false
  | some s => s ≠ []

/-- `updateBot(botId, update)` from `containerManager.ts`: loads the
registry, returns `null` if the bot is missing, otherwise overwrites
`name`/`branch` when given (truthy), merges `envVars` over the existing
map, stamps `updatedAt`, and saves.  Returns the updated config and the
new registry. -/
def updateBot (reg : Registry) (botId : Str) (update : UpdateBotRequest)
    (now : Str) : Option Bot × Registry :=
  match reg botId with
  | none => (none, reg)
  | some bot =>
    let bot := if truthyStr update.name then { bot with name := update.name.getD [] } else bot
    let bot := if truthyStr update.branch then { bot with branch := update.branch } else bot
    let bot := match update.envVars with
      | some ev => { bot with envVars := objMerge bot.envVars ev }
      | none => bot
    let bot := { bot with updatedAt := now }
    (some bot, reg.set botId bot)

-- ─── Variable substitution (src/templates/variableSubstitution.ts) ────────

/-- Character-count fuel recursion behind `replaceAll`.  The fuel is an
upper bound on the length of the remaining string, so the `0, _ :: _`
case is never reached from `replaceAll`. -/
def replaceAllGo (pat v : Str) : Nat → Str → Str
  | _, [] => []
  | 0, _ :: _ => []
  | fuel + 1, c :: rest =>
    if pat ≠ [] ∧ pat.isPrefixOf (c :: rest) then
      v ++ replaceAllGo pat v fuel (List.drop (pat.length - 1) rest)
    else
      c :: replaceAllGo pat v fuel rest

/-- `result.split(pat).join(v)`: replace every (non-overlapping,
left-to-right) occurrence of `pat` by `v`.  The guard `pat ≠ []` matches
the fact that the substitution patterns are never empty. -/
def replaceAll (pat v : Str) (s : Str) : Str :=
  replaceAllGo pat v s.length s

/-- The negative lookahead `(?![A-Za-z0-9_])`: the remainder of the string
must not begin with an identifier character. -/
def boundaryOk : Str → Bool
  | [] => true
  | c :: _ => !identChar c

/-- Whether the regex `\$KEY(?![A-Za-z0-9_])` matches at the start of `s`. -/
def bareMatch (key : Str) (s : Str) : Bool :=
  ('$' :: key).isPrefixOf s && boundaryOk (List.drop (key.length + 1) s)

/-- Fuel recursion behind `bareReplace`. -/
def bareReplaceGo (key v : Str) : Nat → Str → Str
  | _, [] => []
  | 0, _ :: _ => []
  | fuel + 1, c :: rest =>
    if bareMatch key (c :: rest) then
      v ++ bareReplaceGo key v fuel (List.drop key.length rest)
    else
      c :: bareReplaceGo key v fuel rest

/-- `result.replace(new RegExp("\\$" + key + "(?![A-Za-z0-9_])", 'g'), v)`:
global left-to-right replacement of `$KEY` at word boundaries. -/
def bareReplace (key v : Str) (s : Str) : Str :=
  bareReplaceGo key v s.length s

/-- The pattern `"${KEY}"`. -/
def bracePat (key : Str) : Str := '$' :: '{' :: (key ++ ['}'])

/-- One iteration of the substitution loop body: replace the `${KEY}` form
first, then the bare `$KEY` form. -/
def substStep (s : Str) (kv : Str × Str) : Str :=
  bareReplace kv.1 kv.2 (replaceAll (bracePat kv.1) kv.2 s)

/-- `applyVariableSubstitution`'s loop over `Object.entries(vars)`. -/
def substituteVars (vars : List (Str × Str)) (s : Str) : Str :=
  vars.foldl substStep s

/-- The process environment read by `buildSubstitutionVariables`. -/
structure SubstEnv where
  PUID : Option Str
  PGID : Option Str
  REF_DOMAIN : Option Str
  REF_SCHEME : Option Str
  REF_PORT : Option Str
deriving Repr

/-- JS `a || d` for an optional env string: the default is used when the
variable is unset or empty (falsy). -/
def orDefault (v : Option Str) (d : Str) : Str :=
  match v with
  | none => d
  | some s => if s = [] then d else s

/-- `buildSubstitutionVariables(bot)` (variableSubstitution.ts): the fixed
variables in declaration order, then the bot's own env vars assigned on
top (JS object insertion/overwrite semantics).  `randAuth`/`randApi`
stand for the `generateHash()` results used when the bot has no stored
`authHash`/`updateToken`. -/
def buildSubstitutionVariables (env : SubstEnv) (randAuth randApi : Str)
    (bot : Bot) : List (Str × Str) :=
  let fixed : List (Str × Str) :=
    [ (str "APP_ID", str "bot-" ++ bot.id),
      (str "AUTH_HASH", match bot.authHash with | some h => if h = [] then randAuth else h | none => randAuth),
      (str "API_HASH", match bot.updateToken with | some t => if t = [] then randApi else t | none => randApi),
      (str "PUID", orDefault env.PUID (str "1000")),
      (str "PGID", orDefault env.PGID (str "1000")),
      (str "REF_DOMAIN", orDefault env.REF_DOMAIN (str "localhost")),
      (str "REF_SCHEME", orDefault env.REF_SCHEME (str "http")),
      (str "REF_PORT", orDefault env.REF_PORT (str "3000")) ]
  bot.envVars.foldl (fun acc kv => objSet acc kv.1 kv.2) fixed

/-- `applyVariableSubstitution(compose, bot)`. -/
def applyVariableSubstitution (env : SubstEnv) (randAuth randApi : Str)
    (compose : Str) (bot : Bot) : Str :=
  substituteVars (buildSubstitutionVariables env randAuth randApi bot) compose

-- ─── Compose document model (parsed YAML, src/templates/pcsProcessing.ts) ──

/-- A `volumes:` entry of a service: short syntax `"host:container"` or the
long syntax object with an optional `source` (and `type`) field. -/
inductive VolumeEntry where
  | short (s : Str)
  | long (source : Option Str) (vtype : Option Str) (target : Option Str)
deriving DecidableEq, Repr

/-- A service `networks:` section: list form or mapping form.  The mapping
form is modelled by its key list (the attached per-network options are
not inspected by any transform). -/
inductive SvcNetworks where
  | arr (l : List Str)
  | obj (keys : List Str)
deriving DecidableEq, Repr

/-- A service `environment:` section: list of `KEY=VALUE` strings or a
mapping. -/
inductive EnvSection where
  | arr (l : List Str)
  | obj (m : List (Str × Str))
deriving DecidableEq, Repr

/-- A `ports:` entry: string form, or the long form object whose `target`
field (if present) is kept as its `String(target)` image. -/
inductive PortEntry where
  | short (s : Str)
  | long (target : Option Str)
deriving DecidableEq, Repr

/-- A service `labels:` section (mapping or list form). -/
inductive Labels where
  | obj (m : List (Str × Str))
  | arr (l : List Str)
deriving DecidableEq, Repr

/-- A compose service, restricted to the keys the PCS/CasaOS transforms
read or write. -/
structure Service where
  user : Option Str
  volumes : Option (List VolumeEntry)
  network_mode : Option Str
  networks : Option SvcNetworks
  environment : Option EnvSection
  ports : Option (List PortEntry)
  expose : Option (List Str)
  hostname : Option Str
  labels : Option Labels
deriving DecidableEq, Repr

/-- A top-level `networks:` value.  `some none` models a key present with a
null (falsy) value, `some (some d)` an object value. -/
structure NetworkDef where
  ext : Option Bool
deriving DecidableEq, Repr

/-- The `x-casaos` extension section. -/
structure XCasaOS where
  main : Option Str
  icon : Option Str
  is_uncontrolled : Option Bool
  store_app_id : Option Str
  hostname : Option Str
deriving DecidableEq, Repr

/-- A parsed compose document (`doc.toJSON()`), restricted to the keys the
transforms touch.  Service and network maps keep YAML key order. -/
structure Compose where
  name : Option Str
  services : Option (List (Str × Service))
  networks : Option (List (Str × Option NetworkDef))
  xcasaos : Option XCasaOS
deriving DecidableEq, Repr

/-- The `PCSEnvironment` record built by `getPCSEnvironment()`.  The values
already include the `|| default` fallbacks applied there. -/
structure PCSEnv where
  PUID : Str
  PGID : Str
  DATA_ROOT : Str
  REF_NET : Str
  REF_DOMAIN : Str
  REF_SCHEME : Str
  REF_PORT : Str
  REF_SEPARATOR : Str
deriving Repr

/-- `getPCSEnvironment()` with an empty process environment: every field
takes its default. -/
def defaultPCSEnv : PCSEnv :=
  { PUID := str "1000", PGID := str "1000", DATA_ROOT := str "/DATA",
    REF_NET := str "pcs", REF_DOMAIN := str "localhost",
    REF_SCHEME := str "http", REF_PORT := str "80",
    REF_SEPARATOR := str "-" }

/-- The sentinel prefix `/DATA` of the volume-path rewrite. -/
def dataSentinel : Str := str "/DATA"

/-- `getMainServiceName(compose)`: `x-casaos.main` when it is a truthy
string, else the first declared service, else none. -/
def getMainServiceName (c : Compose) : Option Str :=
  match c.xcasaos with
  | some x =>
    match x.main with
    | some m => if m ≠ [] then some m else firstServiceKey c
    | none => firstServiceKey c
  | none => firstServiceKey c
where
  firstServiceKey (c : Compose) : Option Str :=
    match c.services with
    | some ((k, _) :: _) => some k
    | _ => none

/-- `hasPUIDInEnv(env)`: list form — some entry matches `/^PUID=/i`;
mapping form — some key upper-cases to `PUID`. -/
def hasPUIDInEnv : Option EnvSection → Bool
  | none => false
  | some (.arr l) => l.any fun e => (str "PUID=").isPrefixOf (e.map Char.toUpper)
  | some (.obj m) => m.any fun kv => kv.1.map Char.toUpper = str "PUID"

/-- `volume.replace(/^\/DATA/, pcs.DATA_ROOT)` on a short-syntax entry, and
the `source.startsWith('/DATA')` rewrite on a long-syntax entry. -/
def rewriteVolume (pcs : PCSEnv) : VolumeEntry → VolumeEntry
  | .short s =>
    .short (if dataSentinel.isPrefixOf s then pcs.DATA_ROOT ++ s.drop dataSentinel.length else s)
  | .long src t tgt =>
    match src with
    | some s =>
      if dataSentinel.isPrefixOf s then .long (some (pcs.DATA_ROOT ++ s.drop dataSentinel.length)) t tgt
      else .long (some s) t tgt
    | none => .long none t tgt

/-- Network-injection step of `applyPCSProcessing` (main service only). -/
def injectNetwork (pcs : PCSEnv) (svc : Service) : Service :=
  if svc.network_mode = none ∨ svc.network_mode = some (str "bridge") then
    match svc.networks with
    | none => { svc with networks := some (.arr [pcs.REF_NET]) }
    | some (.arr l) =>
      if pcs.REF_NET ∈ l then svc else { svc with networks := some (.arr (l ++ [pcs.REF_NET])) }
    | some (.obj keys) =>
      if pcs.REF_NET ∈ keys then svc else { svc with networks := some (.obj (keys ++ [pcs.REF_NET])) }
  else svc

/-- PUID/PGID environment-injection step of `applyPCSProcessing` on an
`environment:` section: `if (!service.environment) service.environment = {}`,
then, when `hasPUIDInEnv` is false, push `PUID=…`/`PGID=…` (list form) or
assign `env.PUID` and `env.PGID` (mapping form — JS assignment, so an
existing exact `PGID` key is overwritten). -/
def injectEnvSection (pcs : PCSEnv) (e : Option EnvSection) : EnvSection :=
  let env := match e with
    | none => EnvSection.obj []
    | some e => e
  if hasPUIDInEnv (some env) then env
  else
    match env with
    | .arr l => .arr (l ++ [str "PUID=" ++ pcs.PUID, str "PGID=" ++ pcs.PGID])
    | .obj m => .obj (objSet (objSet m (str "PUID") pcs.PUID) (str "PGID") pcs.PGID)

/-- The write-back of the injected environment section onto the service. -/
def injectEnv (pcs : PCSEnv) (svc : Service) : Service :=
  { svc with environment := some (injectEnvSection pcs svc.environment) }

/-- The per-service body of the `applyPCSProcessing` loop. -/
def pcsService (pcs : PCSEnv) (mainName : Option Str) (name : Str)
    (svc : Service) : Service :=
  let svc := match svc.volumes with
    | some vl => { svc with volumes := some (vl.map (rewriteVolume pcs)) }
    | none => svc
  let svc := if some name = mainName ∧ pcs.REF_NET ≠ [] then injectNetwork pcs svc else svc
  injectEnv pcs svc

/-- `applyPCSProcessing(composeContent)`: volume rewrite, main-service
network injection, PUID/PGID injection, and the top-level `networks`
definition for `REF_NET`.  A document with no `services` section is
returned unchanged. -/
def applyPCSProcessing (pcs : PCSEnv) (c : Compose) : Compose :=
  match c.services with
  | none => c
  | some ss =>
    let mainName := getMainServiceName c
    let c := { c with services := some (ss.map fun (p : Str × Service) => (p.1, pcsService pcs mainName p.1 p.2)) }
    if pcs.REF_NET ≠ [] then
      let nets := match c.networks with
        | none => []
        | some l => l
      match objGetNet nets pcs.REF_NET with
      | some (some _) => { c with networks := some nets }
      | _ => { c with networks := some (setNet nets pcs.REF_NET) }
    else c
where
  objGetNet (l : List (Str × Option NetworkDef)) (k : Str) : Option (Option NetworkDef) :=
    match l with
    | [] => none
    | (k', v) :: rest => if k' = k then some v else objGetNet rest k
  setNet (l : List (Str × Option NetworkDef)) (k : Str) : List (Str × Option NetworkDef) :=
    match l with
    | [] => [(k, some { ext := some true })]
    | (k', v) :: rest =>
      if k' = k then (k', some { ext := some true }) :: rest else (k', v) :: setNet rest k

-- ─── CasaOS metadata transform (applyCasaOSMetadata) ──────────────────────

/-- `parts[0]` on a non-empty list of string parts. -/
def firstPart : List Str → Str
  | [] => []
  | p :: _ => p

/-- `parts[parts.length - 1]` on a non-empty list of string parts. -/
def lastPart : List Str → Str
  | [] => []
  | [p] => p
  | _ :: p :: ps => lastPart (p :: ps)

/-- JS `String.prototype.split` on a single-character separator (always
returns a non-empty list of parts). -/
def splitOnChar (sep : Char) (s : Str) : List Str :=
  match s with
  | [] => [[]]
  | c :: rest =>
    let ps := splitOnChar sep rest
    if c = sep then [] :: ps
    else (c :: firstPart ps) :: ps.tail

/-- The container-side port contributed by one `ports` entry, following the
loop body of `applyCasaOSMetadata`: for a string, the part after the last
`:` (or the whole string), with any `/proto` suffix stripped, skipped when
empty (falsy); for an object, `String(target)` when `target` is present. -/
def portOfEntry : PortEntry → Option Str
  | .short s =>
    let parts := splitOnChar ':' s
    let containerPort := if parts.length > 1 then lastPart parts else firstPart parts
    let containerPort := firstPart (splitOnChar '/' containerPort)
    if containerPort = [] then none else some containerPort
  | .long tgt => tgt

/-- The `exposedPorts` accumulation: each contributed port is pushed unless
already present (first occurrence kept). -/
def collectExposed (pl : List PortEntry) : List Str :=
  pl.foldl (fun acc e =>
    match portOfEntry e with
    | some p => if p ∈ acc then acc else acc ++ [p]
    | none => acc) []

/-- The ports→expose step of `applyCasaOSMetadata` on one service:
when a `ports` array is present, compute `exposedPorts`; set `expose`
only when non-empty (`if (exposedPorts.length > 0)`); always delete
`ports`. -/
def portsToExpose (svc : Service) : Service :=
  match svc.ports with
  | none => svc
  | some pl =>
    let exposed := collectExposed pl
    let svc := if exposed ≠ [] then { svc with expose := some exposed } else svc
    { svc with ports := none }

/-- The per-service body of the `applyCasaOSMetadata` loop: ports→expose,
then hostname and icon-label placement on the main service. -/
def casaService (appName : Str) (icon : Option Str) (mainName : Option Str)
    (name : Str) (svc : Service) : Service :=
  let svc := portsToExpose svc
  let svc := if some name = mainName then { svc with hostname := some appName } else svc
  if some name = mainName then
    match icon with
    | some ic =>
      if ic ≠ [] then
        match svc.labels with
        | none => { svc with labels := some (.obj (objSet [] (str "icon") ic)) }
        | some (.obj m) => { svc with labels := some (.obj (objSet m (str "icon") ic)) }
        | some (.arr l) => { svc with labels := some (.arr l) }
      else svc
    | none => svc
  else svc

/-- `compose['x-casaos']?.icon` read by the icon-label step. -/
def xcasaosIcon (c : Compose) : Option Str :=
  match c.xcasaos with
  | some x => x.icon
  | none => none

/-- `applyCasaOSMetadata(composeContent, appName)`: ports→expose on every
service, hostname and icon on the main service, and the required
`x-casaos` fields.  A document with no `services` section is returned
unchanged. -/
def applyCasaOSMetadata (pcs : PCSEnv) (c : Compose) (appName : Str) : Compose :=
  match c.services with
  | none => c
  | some ss =>
    let mainName := getMainServiceName c
    let icon := xcasaosIcon c
    let c := { c with services := some (ss.map fun (p : Str × Service) => (p.1, casaService appName icon mainName p.1 p.2)) }
    let x := match c.xcasaos with
      | some x => x
      | none => { main := none, icon := none, is_uncontrolled := none,
                  store_app_id := none, hostname := none }
    let x := { x with is_uncontrolled := some false, store_app_id := some appName }
    let x := if pcs.REF_DOMAIN ≠ [] ∧ pcs.REF_DOMAIN ≠ str "localhost" then
        { x with hostname := some (appName ++ pcs.REF_SEPARATOR ++ pcs.REF_DOMAIN) }
      else x
    { c with xcasaos := some x }

-- ─── Claim-side (spec) formulations ───────────────────────────────────────

/-- The "source" of a volume entry in the sense of the spec: the host part
of a short-syntax `host:container` entry (the part before the first `:`;
an entry without `:` has no host part), or the `source` field of a
long-syntax entry. -/
def volSource : VolumeEntry → Option Str
  | .short s => if ':' ∈ s then some (s.takeWhile (· ≠ ':')) else none
  | .long src _ _ => src

/-- Claim-side deduplication: keep the first occurrence of every element
(later duplicates are dropped). -/
def dedupFirst : List Str → List Str
  | [] => []
  | x :: r => x :: (dedupFirst r).filter (· ≠ x)

-- ─── List-level helper lemmas ─────────────────────────────────────────────

theorem splitOnChar_ne_nil (sep : Char) (s : Str) : splitOnChar sep s ≠ [] := by
  cases s with
  | nil => simp [splitOnChar]
  | cons c rest =>
    simp only [splitOnChar]
    split <;> simp

theorem splitOnChar_of_not_mem {sep : Char} {s : Str} (h : sep ∉ s) :
    splitOnChar sep s = [s] := by
  induction s with
  | nil => simp [splitOnChar]
  | cons c rest ih =>
    simp only [List.mem_cons, not_or] at h
    simp [splitOnChar, firstPart, Ne.symm h.1, ih h.2]

/-- One-step unfolding of `splitOnChar` on a cons cell. -/
theorem splitOnChar_cons (sep c : Char) (rest : Str) :
    splitOnChar sep (c :: rest) =
      if c = sep then [] :: splitOnChar sep rest
      else (c :: firstPart (splitOnChar sep rest)) :: (splitOnChar sep rest).tail := rfl

theorem splitOnChar_first (sep : Char) (s : Str) :
    firstPart (splitOnChar sep s) = s.takeWhile (· ≠ sep) := by
  induction s with
  | nil => simp [splitOnChar, firstPart]
  | cons c rest ih =>
    rw [splitOnChar_cons]
    by_cases hc : c = sep
    · rw [if_pos hc]
      simp only [firstPart]
      rw [List.takeWhile_cons_of_neg]
      simp [hc]
    · rw [if_neg hc]
      have hfp : firstPart ((c :: firstPart (splitOnChar sep rest)) :: (splitOnChar sep rest).tail)
          = c :: firstPart (splitOnChar sep rest) := rfl
      rw [hfp, List.takeWhile_cons_of_pos (by simp [hc]), ih]

theorem lastPart_cons_of_ne_nil {l : List Str} (h : l ≠ []) (x : Str) :
    lastPart (x :: l) = lastPart l := by
  cases l with
  | nil => exact absurd rfl h
  | cons a l' => rfl

theorem splitOnChar_append_sep {sep : Char} (a : Str) {b : Str} (hb : sep ∉ b) :
    lastPart (splitOnChar sep (a ++ sep :: b)) = b ∧
    1 < (splitOnChar sep (a ++ sep :: b)).length := by
  induction a with
  | nil =>
    rw [List.nil_append, splitOnChar_cons, if_pos rfl, splitOnChar_of_not_mem hb]
    exact ⟨rfl, by simp⟩
  | cons c a' ih =>
    have hps := splitOnChar_ne_nil sep (a' ++ sep :: b)
    rw [List.cons_append, splitOnChar_cons]
    by_cases hc : c = sep
    · rw [if_pos hc]
      refine ⟨(lastPart_cons_of_ne_nil hps []).trans ih.1, ?_⟩
      have h2 := ih.2
      simp only [List.length_cons]
      omega
    · rw [if_neg hc]
      obtain ⟨p₀, ps', hps'⟩ : ∃ p₀ ps', splitOnChar sep (a' ++ sep :: b) = p₀ :: ps' := by
        cases h : splitOnChar sep (a' ++ sep :: b) with
        | nil => exact absurd h hps
        | cons x xs => exact ⟨x, xs, rfl⟩
      have hlen := ih.2
      rw [hps'] at hlen
      have hps'ne : ps' ≠ [] := by
        cases ps' with
        | nil => simp at hlen
        | cons _ _ => simp
      refine ⟨?_, ?_⟩
      · rw [hps', List.tail_cons, lastPart_cons_of_ne_nil hps'ne]
        have hb' := ih.1
        rw [hps', lastPart_cons_of_ne_nil hps'ne] at hb'
        exact hb'
      · rw [hps']
        simp only [List.tail_cons, List.length_cons]
        simp only [List.length_cons] at hlen
        omega

-- ─── C1: ports → expose ───────────────────────────────────────────────────

theorem portOfEntry_bare {s : Str} (h : ':' ∉ s) :
    portOfEntry (.short s) =
      (if s.takeWhile (· ≠ '/') = [] then none else some (s.takeWhile (· ≠ '/'))) := by
  have h1 : splitOnChar ':' s = [s] := splitOnChar_of_not_mem h
  have h2 : (if ([s] : List Str).length > 1 then lastPart [s] else firstPart [s]) = s := by
    rw [if_neg (by simp)]
    rfl
  simp only [portOfEntry, h1, h2, splitOnChar_first]

theorem portOfEntry_hostPort {host container : Str} (h : ':' ∉ container) :
    portOfEntry (.short (host ++ ':' :: container)) =
      (if container.takeWhile (· ≠ '/') = [] then none
       else some (container.takeWhile (· ≠ '/'))) := by
  obtain ⟨hlast, hlen⟩ := splitOnChar_append_sep host h
  have h2 : (if (splitOnChar ':' (host ++ ':' :: container)).length > 1
      then lastPart (splitOnChar ':' (host ++ ':' :: container))
      else firstPart (splitOnChar ':' (host ++ ':' :: container))) = container := by
    rw [if_pos hlen, hlast]
  simp only [portOfEntry]
  rw [h2, splitOnChar_first]

theorem portOfEntry_long (t : Option Str) : portOfEntry (.long t) = t := rfl

theorem collectExposed_eq_dedupFirst (pl : List PortEntry) :
    collectExposed pl = dedupFirst (pl.filterMap portOfEntry) := by
  have aux : ∀ (l : List PortEntry) (acc : List Str),
      l.foldl (fun acc e =>
        match portOfEntry e with
        | some p => if p ∈ acc then acc else acc ++ [p]
        | none => acc) acc =
      acc ++ (dedupFirst (l.filterMap portOfEntry)).filter (fun p => decide (p ∉ acc)) := by
    intro l
    induction l with
    | nil => intro acc; simp [dedupFirst]
    | cons e r ih =>
      intro acc
      simp only [List.foldl_cons, List.filterMap_cons]
      cases hp : portOfEntry e with
      | none => exact ih acc
      | some p =>
        dsimp only
        by_cases hmem : p ∈ acc
        · rw [if_pos hmem]
          rw [ih acc]
          simp only [dedupFirst, List.filter_cons]
          rw [if_neg (by simp [hmem])]
          congr 1
          rw [List.filter_filter]
          apply List.filter_congr
          intro a _
          by_cases hap : a = p <;> by_cases haa : a ∈ acc <;>
            simp_all
        · rw [if_neg hmem]
          rw [ih (acc ++ [p])]
          simp only [dedupFirst, List.filter_cons]
          rw [if_pos (by simp [hmem])]
          simp only [List.append_assoc, List.singleton_append]
          congr 2
          rw [List.filter_filter]
          apply List.filter_congr
          intro a _
          by_cases hap : a = p <;> by_cases haa : a ∈ acc <;>
            simp [hap, haa]
  have h0 := aux pl []
  simp only [collectExposed] at h0 ⊢
  rw [h0]
  simp

theorem casaService_ports (app : Str) (icon : Option Str) (mainName : Option Str)
    (n : Str) (svc : Service) :
    (casaService app icon mainName n svc).ports = (portsToExpose svc).ports ∧
    (casaService app icon mainName n svc).expose = (portsToExpose svc).expose := by
  simp only [casaService]
  split
  · split
    · split
      · split <;> simp
      · simp
    · simp
  · simp

/-- A service that declares an (empty) `ports` list next to a pre-existing
`expose` — the corner on which C1 as stated fails. -/
def c1Service : Service :=
  { user := none, volumes := none, network_mode := none, networks := none,
    environment := none, ports := some [], expose := some [str "9"],
    hostname := none, labels := none }

def c1Doc : Compose :=
  { name := none, services := some [(str "web", c1Service)], networks := none,
    xcasaos := none }

/-- C1 counterexample: on a service with `ports: []` (and an existing
`expose: ["9"]`), `applyCasaOSMetadata` removes `ports` but does **not**
set `expose` to the (empty) deduplicated container-port list — the stale
`expose` value survives, contradicting the claim that `expose` is set to
the deduplicated list for every service declaring a `ports` list. -/
theorem claim1_counterexample :
    c1Service.ports = some [] ∧
    dedupFirst (List.filterMap portOfEntry []) = [] ∧
    (applyCasaOSMetadata defaultPCSEnv c1Doc (str "app")).services =
      some [(str "web",
        { c1Service with ports := none, hostname := some (str "app") })] ∧
    ({ c1Service with ports := none, hostname := some (str "app") } : Service).expose
      = some [str "9"] ∧
    some [str "9"] ≠ some ([] : List Str) := by
  refine ⟨rfl, rfl, ?_, rfl, by decide⟩
  decide

/-- C1 (corrected): for every compose document and every service that
declares a `ports` list, `applyCasaOSMetadata` removes the `ports` key and,
**when at least one entry contributes a container port**, sets `expose` to
the deduplicated (first occurrences kept) list of container-side ports;
when no entry contributes a port, `expose` is left unchanged.  A string
entry `host:container[/proto]` contributes the part after the last `:`
with any protocol suffix stripped, a bare string contributes itself with
any protocol suffix stripped (empty results are skipped), and a structured
entry contributes `String(target)` when `target` is present. -/
theorem claim1_ports_to_expose (pcs : PCSEnv) (c : Compose) (app : Str)
    (ss : List (Str × Service)) (i : Nat) (n : Str) (svc : Service)
    (pl : List PortEntry)
    (hs : c.services = some ss) (hi : ss[i]? = some (n, svc))
    (hp : svc.ports = some pl) :
    (∃ ss' svc',
      (applyCasaOSMetadata pcs c app).services = some ss' ∧
      ss'[i]? = some (n, svc') ∧
      svc'.ports = none ∧
      (collectExposed pl ≠ [] →
        svc'.expose = some (dedupFirst (pl.filterMap portOfEntry))) ∧
      (collectExposed pl = [] → svc'.expose = svc.expose)) ∧
    (∀ host container : Str, ':' ∉ container →
      portOfEntry (.short (host ++ ':' :: container)) =
        (if container.takeWhile (· ≠ '/') = [] then none
         else some (container.takeWhile (· ≠ '/')))) ∧
    (∀ s : Str, ':' ∉ s →
      portOfEntry (.short s) =
        (if s.takeWhile (· ≠ '/') = [] then none
         else some (s.takeWhile (· ≠ '/')))) ∧
    (∀ t, portOfEntry (.long t) = t) := by
  refine ⟨?_, fun h cont hc => portOfEntry_hostPort hc,
    fun s hc => portOfEntry_bare hc, fun t => rfl⟩
  refine ⟨ss.map (fun p : Str × Service =>
      (p.1, casaService app (xcasaosIcon c) (getMainServiceName c) p.1 p.2)),
    casaService app (xcasaosIcon c) (getMainServiceName c) n svc, ?_, ?_, ?_, ?_, ?_⟩
  · simp only [applyCasaOSMetadata, hs]
  · rw [List.getElem?_map, hi]
    rfl
  · rw [(casaService_ports app (xcasaosIcon c) (getMainServiceName c) n svc).1]
    simp only [portsToExpose, hp]
  · intro hne
    rw [(casaService_ports app (xcasaosIcon c) (getMainServiceName c) n svc).2]
    simp only [portsToExpose, hp]
    rw [if_pos hne, ← collectExposed_eq_dedupFirst]
  · intro heq
    rw [(casaService_ports app (xcasaosIcon c) (getMainServiceName c) n svc).2]
    simp only [portsToExpose, hp]
    rw [if_neg (by simp [heq])]

/-- The spec's own example for C1: `ports: ["8080:80", "443"]`. -/
def c1wService : Service :=
  { user := none, volumes := none, network_mode := none, networks := none,
    environment := none,
    ports := some [.short (str "8080:80"), .short (str "443")],
    expose := none, hostname := none, labels := none }

def c1wDoc : Compose :=
  { name := none, services := some [(str "web", c1wService)], networks := none,
    xcasaos := none }

/-- Witness for C1 at the spec's example document. -/
theorem claim1_ports_to_expose_witness :
    (c1wDoc.services = some [(str "web", c1wService)] ∧
     ([(str "web", c1wService)] : List (Str × Service))[0]? = some (str "web", c1wService) ∧
     c1wService.ports = some [.short (str "8080:80"), .short (str "443")] ∧
     collectExposed [.short (str "8080:80"), .short (str "443")] = [str "80", str "443"]) ∧
    ((∃ ss' svc',
      (applyCasaOSMetadata defaultPCSEnv c1wDoc (str "app")).services = some ss' ∧
      ss'[0]? = some (str "web", svc') ∧
      svc'.ports = none ∧
      (collectExposed [.short (str "8080:80"), .short (str "443")] ≠ [] →
        svc'.expose = some (dedupFirst
          (List.filterMap portOfEntry [.short (str "8080:80"), .short (str "443")]))) ∧
      (collectExposed [.short (str "8080:80"), .short (str "443")] = [] →
        svc'.expose = c1wService.expose)) ∧
    (∀ host container : Str, ':' ∉ container →
      portOfEntry (.short (host ++ ':' :: container)) =
        (if container.takeWhile (· ≠ '/') = [] then none
         else some (container.takeWhile (· ≠ '/')))) ∧
    (∀ s : Str, ':' ∉ s →
      portOfEntry (.short s) =
        (if s.takeWhile (· ≠ '/') = [] then none
         else some (s.takeWhile (· ≠ '/')))) ∧
    (∀ t, portOfEntry (.long t) = t)) :=
  ⟨⟨rfl, rfl, rfl, by decide⟩,
   claim1_ports_to_expose defaultPCSEnv c1wDoc (str "app")
     [(str "web", c1wService)] 0 (str "web") c1wService
     [.short (str "8080:80"), .short (str "443")] rfl rfl rfl⟩

-- ─── C2: host-path rewrite ────────────────────────────────────────────────

theorem takeWhile_eq_self_of_all {pred : Char → Bool} {p : Str}
    (h : ∀ c ∈ p, pred c = true) : p.takeWhile pred = p := by
  induction p with
  | nil => rfl
  | cons c rest ih =>
    rw [List.takeWhile_cons_of_pos (h c (by simp))]
    rw [ih fun c' hc' => h c' (by simp [hc'])]

theorem prefix_takeWhile {pred : Char → Bool} {p s : Str}
    (h : p <+: s) (hall : ∀ c ∈ p, pred c = true) :
    p <+: s.takeWhile pred := by
  obtain ⟨t, rfl⟩ := h
  rw [List.takeWhile_append]
  rw [takeWhile_eq_self_of_all hall]
  rw [if_pos rfl]
  exact List.prefix_append p _

/-- When the configured data root is neither an extension nor a proper
prefix of the sentinel, no string of the form `DATA_ROOT ++ t` begins with
the sentinel. -/
theorem sentinel_not_prefix_append {root : Str}
    (hp1 : ¬ dataSentinel <+: root) (hp2 : ¬ root <+: dataSentinel)
    (t : Str) : ¬ dataSentinel <+: root ++ t := by
  rintro ⟨u, hu⟩
  rcases List.append_eq_append_iff.mp hu with ⟨a, ha, _⟩ | ⟨c', hc', _⟩
  · exact hp1 ⟨a, ha.symm⟩
  · exact hp2 ⟨c', hc'.symm⟩

theorem rewriteVolume_no_sentinel {pcs : PCSEnv}
    (hp1 : ¬ dataSentinel <+: pcs.DATA_ROOT)
    (hp2 : ¬ pcs.DATA_ROOT <+: dataSentinel)
    (v : VolumeEntry) {s' : Str}
    (h : volSource (rewriteVolume pcs v) = some s') :
    ¬ dataSentinel <+: s' := by
  cases v with
  | short s =>
    simp only [rewriteVolume] at h
    by_cases hpre : dataSentinel.isPrefixOf s
    · rw [if_pos hpre] at h
      simp only [volSource] at h
      split at h
      · intro hcon
        have h1 : s' <+: pcs.DATA_ROOT ++ s.drop dataSentinel.length := by
          rw [← Option.some_inj.mp h]
          exact List.takeWhile_prefix _
        exact sentinel_not_prefix_append hp1 hp2 _ (hcon.trans h1)
      · exact absurd h (by simp)
    · rw [if_neg hpre] at h
      simp only [volSource] at h
      split at h
      · intro hcon
        have h1 : s' <+: s := by
          rw [← Option.some_inj.mp h]
          exact List.takeWhile_prefix _
        exact hpre (by
          rw [List.isPrefixOf_iff_prefix]
          exact hcon.trans h1)
      · exact absurd h (by simp)
  | long src vt tgt =>
    cases src with
    | none => simp [rewriteVolume, volSource] at h
    | some s =>
      simp only [rewriteVolume] at h
      by_cases hpre : dataSentinel.isPrefixOf s
      · rw [if_pos hpre] at h
        simp only [volSource, Option.some_inj] at h
        rw [← h]
        exact sentinel_not_prefix_append hp1 hp2 _
      · rw [if_neg hpre] at h
        simp only [volSource, Option.some_inj] at h
        rw [← h]
        intro hcon
        rw [← List.isPrefixOf_iff_prefix] at hcon
        exact hpre hcon

theorem rewriteVolume_frame {pcs : PCSEnv} (v : VolumeEntry)
    (h : ∃ s, volSource v = some s ∧ ¬ dataSentinel <+: s) :
    rewriteVolume pcs v = v := by
  obtain ⟨s₀, hsrc, hclean⟩ := h
  cases v with
  | short s =>
    simp only [volSource] at hsrc
    split at hsrc
    · simp only [Option.some_inj] at hsrc
      have hnot : ¬ dataSentinel.isPrefixOf s := by
        rw [List.isPrefixOf_iff_prefix]
        intro hcon
        exact hclean (by
          rw [← hsrc]
          exact prefix_takeWhile hcon (by decide))
      simp [rewriteVolume, hnot]
    · exact absurd hsrc (by simp)
  | long src vt tgt =>
    simp only [volSource] at hsrc
    rw [hsrc]
    have hnot : ¬ dataSentinel.isPrefixOf s₀ := by
      rw [List.isPrefixOf_iff_prefix]
      exact hclean
    simp [rewriteVolume, hnot]

theorem injectNetwork_volumes (pcs : PCSEnv) (svc : Service) :
    (injectNetwork pcs svc).volumes = svc.volumes := by
  unfold injectNetwork
  split
  · split
    · rfl
    · split <;> rfl
    · split <;> rfl
  · rfl

theorem injectEnv_volumes (pcs : PCSEnv) (svc : Service) :
    (injectEnv pcs svc).volumes = svc.volumes := rfl

theorem pcsService_volumes {pcs : PCSEnv} (mainName : Option Str) (n : Str)
    {svc : Service} {vl : List VolumeEntry} (hv : svc.volumes = some vl) :
    (pcsService pcs mainName n svc).volumes = some (vl.map (rewriteVolume pcs)) := by
  unfold pcsService
  rw [injectEnv_volumes]
  split
  · rw [injectNetwork_volumes]
    simp only [hv]
  · simp only [hv]

/-- The document of the C2 counterexample: one bind mount under the
sentinel, processed under the **default** environment
(`DATA_ROOT = "/DATA"`). -/
def c2Service : Service :=
  { user := none, volumes := some [.short (str "/DATA/x:/app")],
    network_mode := none, networks := none, environment := none,
    ports := none, expose := none, hostname := none, labels := none }

def c2Doc : Compose :=
  { name := none, services := some [(str "web", c2Service)], networks := none,
    xcasaos := none }

/-- C2 counterexample: with the default configuration the data root **is**
the sentinel `/DATA`, so the rewrite maps `/DATA/x` to itself and the
volume source still starts with `/DATA` after `applyPCSProcessing`,
contradicting the claim that no source starts with the sentinel prefix
after the rewrite. -/
theorem claim2_counterexample :
    ((applyPCSProcessing defaultPCSEnv c2Doc).services.map
      (fun l => l.map (fun p => p.2.volumes))) =
      some [some [.short (str "/DATA/x:/app")]] ∧
    volSource (.short (str "/DATA/x:/app")) = some (str "/DATA/x") ∧
    dataSentinel <+: str "/DATA/x" := by
  refine ⟨by decide, by decide, ⟨str "/x", by decide⟩⟩

/-- C2 (corrected): provided the configured `DATA_ROOT` neither starts
with `/DATA` nor is a proper prefix of it (any ordinary root such as
`/srv` qualifies — excluded in particular is the default `/DATA` itself),
after the host-path rewrite step of `applyPCSProcessing` no volume
entry's source starts with `/DATA`, and every volume entry that has a
source not starting with `/DATA` is unchanged. -/
theorem claim2_host_path_rewrite (pcs : PCSEnv)
    (hp1 : ¬ dataSentinel <+: pcs.DATA_ROOT)
    (hp2 : ¬ pcs.DATA_ROOT <+: dataSentinel)
    (c : Compose) (ss : List (Str × Service)) (i : Nat) (n : Str)
    (svc : Service) (vl : List VolumeEntry)
    (hs : c.services = some ss) (hi : ss[i]? = some (n, svc))
    (hv : svc.volumes = some vl) :
    ∃ ss' svc',
      (applyPCSProcessing pcs c).services = some ss' ∧
      ss'[i]? = some (n, svc') ∧
      svc'.volumes = some (vl.map (rewriteVolume pcs)) ∧
      (∀ v ∈ vl, ∀ s', volSource (rewriteVolume pcs v) = some s' →
        ¬ dataSentinel <+: s') ∧
      (∀ v ∈ vl, (∃ s, volSource v = some s ∧ ¬ dataSentinel <+: s) →
        rewriteVolume pcs v = v) := by
  refine ⟨ss.map (fun p : Str × Service =>
      (p.1, pcsService pcs (getMainServiceName c) p.1 p.2)),
    pcsService pcs (getMainServiceName c) n svc, ?_, ?_, ?_, ?_, ?_⟩
  · simp only [applyPCSProcessing, hs]
    split
    · split <;> rfl
    · rfl
  · rw [List.getElem?_map, hi]
    rfl
  · exact pcsService_volumes (getMainServiceName c) n hv
  · intro v _ s' h
    exact rewriteVolume_no_sentinel hp1 hp2 v h
  · intro v _ h
    exact rewriteVolume_frame v h

/-- The C2 witness environment (`DATA_ROOT = /srv`) and document. -/
def c2wEnv : PCSEnv := { defaultPCSEnv with DATA_ROOT := str "/srv" }

def c2wService : Service :=
  { user := none,
    volumes := some [.short (str "/DATA/a:/app"), .short (str "named:/d"),
      .long (some (str "/DATA/b")) none (some (str "/b")),
      .long (some (str "/etc/cfg")) none (some (str "/cfg"))],
    network_mode := none, networks := none, environment := none,
    ports := none, expose := none, hostname := none, labels := none }

def c2wDoc : Compose :=
  { name := none, services := some [(str "web", c2wService)], networks := none,
    xcasaos := none }

/-- Witness for C2 at a concrete document and environment. -/
theorem claim2_host_path_rewrite_witness :
    (¬ dataSentinel <+: c2wEnv.DATA_ROOT ∧
     ¬ c2wEnv.DATA_ROOT <+: dataSentinel ∧
     c2wDoc.services = some [(str "web", c2wService)]) ∧
    (∃ ss' svc',
      (applyPCSProcessing c2wEnv c2wDoc).services = some ss' ∧
      ss'[0]? = some (str "web", svc') ∧
      svc'.volumes = some ((c2wService.volumes.getD []).map (rewriteVolume c2wEnv)) ∧
      (∀ v ∈ c2wService.volumes.getD [], ∀ s',
        volSource (rewriteVolume c2wEnv v) = some s' → ¬ dataSentinel <+: s') ∧
      (∀ v ∈ c2wService.volumes.getD [],
        (∃ s, volSource v = some s ∧ ¬ dataSentinel <+: s) →
        rewriteVolume c2wEnv v = v)) :=
  ⟨⟨by decide, by decide, rfl⟩,
   claim2_host_path_rewrite c2wEnv (by decide) (by decide) c2wDoc
     [(str "web", c2wService)] 0 (str "web") c2wService
     (c2wService.volumes.getD []) rfl rfl rfl⟩

-- ─── C3: identity-env injection ───────────────────────────────────────────

theorem injectNetwork_environment (pcs : PCSEnv) (svc : Service) :
    (injectNetwork pcs svc).environment = svc.environment := by
  unfold injectNetwork
  split
  · split
    · rfl
    · split <;> rfl
    · split <;> rfl
  · rfl

theorem pcsService_environment (pcs : PCSEnv) (mainName : Option Str) (n : Str)
    (svc : Service) :
    (pcsService pcs mainName n svc).environment =
      some (injectEnvSection pcs svc.environment) := by
  unfold pcsService injectEnv
  have henv : ∀ s₁ : Service, s₁.environment = svc.environment →
      (Service.mk s₁.user s₁.volumes s₁.network_mode s₁.networks
        (some (injectEnvSection pcs s₁.environment)) s₁.ports s₁.expose
        s₁.hostname s₁.labels).environment =
      some (injectEnvSection pcs svc.environment) := by
    intro s₁ h₁
    simp [h₁]
  apply henv
  split
  · rw [injectNetwork_environment]
    split <;> rfl
  · split <;> rfl

theorem objGet_objSet_ne {m : List (Str × Str)} {k k' v : Str} (h : k ≠ k') :
    objGet (objSet m k' v) k = objGet m k := by
  induction m with
  | nil =>
    simp only [objSet, objGet]
    rw [if_neg fun hc => h hc.symm]
  | cons kv rest ih =>
    obtain ⟨k₀, v₀⟩ := kv
    simp only [objSet]
    by_cases h0 : k₀ = k'
    · rw [if_pos h0]
      simp only [objGet]
      rw [if_neg (by rw [h0]; exact fun hc => h hc.symm),
        if_neg (by rw [h0]; exact fun hc => h hc.symm)]
    · rw [if_neg h0]
      simp only [objGet]
      by_cases hk : k₀ = k
      · rw [if_pos hk, if_pos hk]
      · rw [if_neg hk, if_neg hk]
        exact ih

/-- The C3 counterexample service: a mapping-form environment with an
explicitly set `PGID` and no `PUID`. -/
def c3Service : Service :=
  { user := none, volumes := none, network_mode := none, networks := none,
    environment := some (.obj [(str "PGID", str "1234")]),
    ports := none, expose := none, hostname := none, labels := none }

def c3Doc : Compose :=
  { name := none, services := some [(str "web", c3Service)], networks := none,
    xcasaos := none }

/-- C3 counterexample: a service whose mapping-form environment explicitly
sets `PGID: "1234"` but no PUID is *not* left intact: `applyPCSProcessing`
(with the default configured PGID `1000`) overwrites the explicitly set
`PGID` value, contradicting "an explicitly set environment value
(including an explicitly set PGID) is never overridden". -/
theorem claim3_counterexample :
    hasPUIDInEnv c3Service.environment = false ∧
    (∃ m, c3Service.environment = some (.obj m) ∧ objGet m (str "PGID") = some (str "1234")) ∧
    ((applyPCSProcessing defaultPCSEnv c3Doc).services.map
      (fun l => l.map (fun p => p.2.environment))) =
      some [some (.obj [(str "PGID", str "1000"), (str "PUID", str "1000")])] ∧
    objGet [(str "PGID", str "1000"), (str "PUID", str "1000")] (str "PGID")
      = some (str "1000") ∧
    some (str "1000") ≠ some (str "1234") := by
  refine ⟨rfl, ⟨[(str "PGID", str "1234")], rfl, rfl⟩, by decide, rfl, by decide⟩

/-- C3 (corrected): under `applyPCSProcessing`, a service whose environment
already contains a PUID key (case-insensitively, in list or mapping form)
is left unchanged by the identity-env injection; otherwise the configured
PUID and PGID are written: appended in list form, assigned in mapping form
— where the `PGID` assignment **overwrites** an exact explicitly-set
`PGID` key.  Explicitly set mapping values under any other key are never
overridden. -/
theorem claim3_identity_env (pcs : PCSEnv) (c : Compose)
    (ss : List (Str × Service)) (i : Nat) (n : Str) (svc : Service)
    (hs : c.services = some ss) (hi : ss[i]? = some (n, svc)) :
    ∃ ss' svc',
      (applyPCSProcessing pcs c).services = some ss' ∧
      ss'[i]? = some (n, svc') ∧
      (hasPUIDInEnv svc.environment = true →
        svc'.environment = svc.environment) ∧
      (∀ l, svc.environment = some (.arr l) →
        hasPUIDInEnv svc.environment = false →
        svc'.environment =
          some (.arr (l ++ [str "PUID=" ++ pcs.PUID, str "PGID=" ++ pcs.PGID]))) ∧
      (∀ m, svc.environment = some (.obj m) →
        hasPUIDInEnv svc.environment = false →
        svc'.environment =
          some (.obj (objSet (objSet m (str "PUID") pcs.PUID) (str "PGID") pcs.PGID))) ∧
      (svc.environment = none →
        svc'.environment =
          some (.obj [(str "PUID", pcs.PUID), (str "PGID", pcs.PGID)])) ∧
      (∀ m k, k ≠ str "PUID" → k ≠ str "PGID" →
        objGet (objSet (objSet m (str "PUID") pcs.PUID) (str "PGID") pcs.PGID) k
          = objGet m k) := by
  refine ⟨ss.map (fun p : Str × Service =>
      (p.1, pcsService pcs (getMainServiceName c) p.1 p.2)),
    pcsService pcs (getMainServiceName c) n svc, ?_, ?_, ?_, ?_, ?_, ?_, ?_⟩
  · simp only [applyPCSProcessing, hs]
    split
    · split <;> rfl
    · rfl
  · rw [List.getElem?_map, hi]
    rfl
  · intro hpuid
    rw [pcsService_environment]
    cases he : svc.environment with
    | none => rw [he] at hpuid; simp [hasPUIDInEnv] at hpuid
    | some e =>
      rw [he] at hpuid
      simp only [injectEnvSection]
      rw [if_pos hpuid]
  · intro l hl hpuid
    rw [pcsService_environment, hl]
    rw [hl] at hpuid
    simp only [injectEnvSection]
    rw [if_neg (by simp [hpuid])]
  · intro m hm hpuid
    rw [pcsService_environment, hm]
    rw [hm] at hpuid
    simp only [injectEnvSection]
    rw [if_neg (by simp [hpuid])]
  · intro hnone
    rw [pcsService_environment, hnone]
    rfl
  · intro m k hk1 hk2
    rw [objGet_objSet_ne hk2, objGet_objSet_ne hk1]

/-- C3 witness document: one service with an existing case-variant PUID
(mapping form), one list-form service without PUID. -/
def c3wServiceA : Service :=
  { user := none, volumes := none, network_mode := none, networks := none,
    environment := some (.obj [(str "Puid", str "7"), (str "X", str "y")]),
    ports := none, expose := none, hostname := none, labels := none }

def c3wDoc : Compose :=
  { name := none, services := some [(str "a", c3wServiceA)], networks := none,
    xcasaos := none }

/-- Witness for C3: a service that already has a case-variant `Puid` key is
left unchanged. -/
theorem claim3_identity_env_witness :
    (c3wDoc.services = some [(str "a", c3wServiceA)] ∧
     hasPUIDInEnv c3wServiceA.environment = true) ∧
    (∃ ss' svc',
      (applyPCSProcessing defaultPCSEnv c3wDoc).services = some ss' ∧
      ss'[0]? = some (str "a", svc') ∧
      (hasPUIDInEnv c3wServiceA.environment = true →
        svc'.environment = c3wServiceA.environment) ∧
      (∀ l, c3wServiceA.environment = some (.arr l) →
        hasPUIDInEnv c3wServiceA.environment = false →
        svc'.environment =
          some (.arr (l ++ [str "PUID=" ++ defaultPCSEnv.PUID,
            str "PGID=" ++ defaultPCSEnv.PGID]))) ∧
      (∀ m, c3wServiceA.environment = some (.obj m) →
        hasPUIDInEnv c3wServiceA.environment = false →
        svc'.environment =
          some (.obj (objSet (objSet m (str "PUID") defaultPCSEnv.PUID)
            (str "PGID") defaultPCSEnv.PGID))) ∧
      (c3wServiceA.environment = none →
        svc'.environment =
          some (.obj [(str "PUID", defaultPCSEnv.PUID),
            (str "PGID", defaultPCSEnv.PGID)])) ∧
      (∀ m k, k ≠ str "PUID" → k ≠ str "PGID" →
        objGet (objSet (objSet m (str "PUID") defaultPCSEnv.PUID)
          (str "PGID") defaultPCSEnv.PGID) k = objGet m k)) :=
  ⟨⟨rfl, by decide⟩,
   claim3_identity_env defaultPCSEnv c3wDoc [(str "a", c3wServiceA)] 0
     (str "a") c3wServiceA rfl rfl⟩

-- ─── C5: log collector ────────────────────────────────────────────────────

theorem addLog_of_lt {logs : List BuildLogEntry} (h : logs.length < maxLogs)
    (e : BuildLogEntry) : addLog logs e = logs ++ [e] := by
  unfold addLog
  rw [if_neg]
  simp only [List.length_append, List.length_cons, List.length_nil]
  omega

theorem foldl_addLog_of_le {es : List BuildLogEntry} :
    ∀ {st : List BuildLogEntry}, st.length + es.length ≤ maxLogs →
    es.foldl addLog st = st ++ es := by
  induction es with
  | nil => intro st _; simp
  | cons e r ih =>
    intro st h
    simp only [List.length_cons] at h
    rw [List.foldl_cons, addLog_of_lt (by omega), ih (by simp; omega)]
    simp

/-- C5: `addLog` is a total function (it always succeeds); after `clear()`
followed by the calls `addLog e₁, …, addLog eN` with `N ≤ 2000`,
`getLogs()` returns exactly those `N` entries in call order; and an
`addLog` on a buffer already holding 2000 entries drops the oldest entry
and keeps the length at exactly 2000. -/
theorem claim5_log_buffer (buf : List BuildLogEntry) (es : List BuildLogEntry)
    (hn : es.length ≤ maxLogs)
    (full : List BuildLogEntry) (hfull : full.length = maxLogs)
    (e : BuildLogEntry) :
    getLogs (es.foldl addLog (clearLogs buf)) = es ∧
    addLog full e = full.drop 1 ++ [e] ∧
    (addLog full e).length = maxLogs := by
  have hdrop : addLog full e = full.drop 1 ++ [e] := by
    unfold addLog
    rw [if_pos (by simp [hfull])]
    simp only [List.length_append, List.length_cons, List.length_nil, hfull]
    rw [show maxLogs + (0 + 1) - maxLogs = 1 by omega]
    rw [List.drop_append_of_le_length (by rw [hfull]; exact (by unfold maxLogs; omega))]
  refine ⟨?_, hdrop, ?_⟩
  · unfold getLogs clearLogs
    rw [foldl_addLog_of_le (by simpa using hn)]
    simp
  · rw [hdrop]
    simp only [List.length_append, List.length_drop, List.length_cons,
      List.length_nil, hfull]
    unfold maxLogs
    omega

/-- Witness entries for C5. -/
def c5Entry (n : Nat) : BuildLogEntry :=
  { message := str "m", sev := .info, timestamp := n }

/-- Witness for C5 at two appended entries and a full 2000-entry buffer. -/
theorem claim5_log_buffer_witness :
    (([c5Entry 1, c5Entry 2] : List BuildLogEntry).length ≤ maxLogs ∧
     (List.replicate 2000 (c5Entry 0)).length = maxLogs) ∧
    (getLogs ([c5Entry 1, c5Entry 2].foldl addLog (clearLogs [c5Entry 9])) =
        [c5Entry 1, c5Entry 2] ∧
      addLog (List.replicate 2000 (c5Entry 0)) (c5Entry 3) =
        (List.replicate 2000 (c5Entry 0)).drop 1 ++ [c5Entry 3] ∧
      (addLog (List.replicate 2000 (c5Entry 0)) (c5Entry 3)).length = maxLogs) :=
  ⟨⟨by simp [maxLogs], by rw [List.length_replicate]; rfl⟩,
   claim5_log_buffer [c5Entry 9] [c5Entry 1, c5Entry 2] (by simp [maxLogs])
     (List.replicate 2000 (c5Entry 0)) (by rw [List.length_replicate]; rfl) (c5Entry 3)⟩

-- ─── C10: updateBot frame ─────────────────────────────────────────────────

theorem objGet_objSet_self (m : List (Str × Str)) (k v : Str) :
    objGet (objSet m k v) k = some v := by
  induction m with
  | nil => simp [objSet, objGet]
  | cons kv rest ih =>
    obtain ⟨k₀, v₀⟩ := kv
    simp only [objSet]
    by_cases h0 : k₀ = k
    · rw [if_pos h0]
      simp [objGet, h0]
    · rw [if_neg h0]
      simp only [objGet]
      rw [if_neg h0]
      exact ih

theorem objGet_eq_none_of_not_mem {m : List (Str × Str)} {k : Str}
    (h : k ∉ m.map Prod.fst) : objGet m k = none := by
  induction m with
  | nil => rfl
  | cons kv rest ih =>
    simp only [List.map_cons, List.mem_cons, not_or] at h
    simp only [objGet]
    rw [if_neg fun hc => h.1 hc.symm]
    exact ih h.2

theorem objGet_objMerge_of_none {b : List (Str × Str)} {k : Str} :
    ∀ {a : List (Str × Str)}, objGet b k = none →
      objGet (objMerge a b) k = objGet a k := by
  induction b with
  | nil => intro a _; rfl
  | cons kv rest ih =>
    intro a h
    obtain ⟨k₀, v₀⟩ := kv
    simp only [objGet] at h
    have hk : ¬ k₀ = k := by
      intro hc
      rw [if_pos hc] at h
      exact Option.noConfusion h
    rw [if_neg hk] at h
    show objGet (objMerge (objSet a k₀ v₀) rest) k = objGet a k
    rw [ih h, objGet_objSet_ne fun hc => hk hc.symm]

theorem objGet_objMerge_of_some {b : List (Str × Str)} {k v : Str} :
    ∀ {a : List (Str × Str)}, (b.map Prod.fst).Nodup →
      objGet b k = some v → objGet (objMerge a b) k = some v := by
  induction b with
  | nil => intro a _ h; exact Option.noConfusion h
  | cons kv rest ih =>
    intro a hnd h
    obtain ⟨k₀, v₀⟩ := kv
    simp only [List.map_cons, List.nodup_cons] at hnd
    simp only [objGet] at h
    by_cases hk : k₀ = k
    · rw [if_pos hk] at h
      have hrest : objGet rest k = none :=
        objGet_eq_none_of_not_mem (by rw [← hk]; exact hnd.1)
      show objGet (objMerge (objSet a k₀ v₀) rest) k = some v
      rw [objGet_objMerge_of_none hrest, hk, objGet_objSet_self]
      exact congrArg some (Option.some_inj.mp h)
    · rw [if_neg hk] at h
      exact ih hnd.2 h

/-- The read-modify-write body of `updateBot` on a found bot. -/
def applyUpdate (bot : Bot) (update : UpdateBotRequest) (now : Str) : Bot :=
  let bot := if truthyStr update.name then { bot with name := update.name.getD [] } else bot
  let bot := if truthyStr update.branch then { bot with branch := update.branch } else bot
  let bot := match update.envVars with
    | some ev => { bot with envVars := objMerge bot.envVars ev }
    | none => bot
  { bot with updatedAt := now }

theorem updateBot_eq (reg : Registry) (botId : Str) (u : UpdateBotRequest)
    (now : Str) :
    updateBot reg botId u now =
      (match reg botId with
       | none => (none, reg)
       | some bot => (some (applyUpdate bot u now),
           reg.set botId (applyUpdate bot u now))) := by
  unfold updateBot applyUpdate
  cases reg botId with
  | none => rfl
  | some bot => cases u.envVars <;> rfl

theorem applyUpdate_frame (bot : Bot) (u : UpdateBotRequest) (now : Str) :
    (applyUpdate bot u now).id = bot.id ∧
    (applyUpdate bot u now).sourceType = bot.sourceType ∧
    (applyUpdate bot u now).url = bot.url ∧
    (applyUpdate bot u now).imageRef = bot.imageRef ∧
    (applyUpdate bot u now).status = bot.status ∧
    (applyUpdate bot u now).containerIds = bot.containerIds ∧
    (applyUpdate bot u now).updateToken = bot.updateToken ∧
    (applyUpdate bot u now).authHash = bot.authHash ∧
    (applyUpdate bot u now).hasBeenStarted = bot.hasBeenStarted ∧
    (applyUpdate bot u now).appName = bot.appName ∧
    (applyUpdate bot u now).createdAt = bot.createdAt ∧
    (applyUpdate bot u now).updatedAt = now ∧
    (applyUpdate bot u now).envVars =
      (match u.envVars with
       | some ev => objMerge bot.envVars ev
       | none => bot.envVars) := by
  unfold applyUpdate
  split <;> split <;> (cases u.envVars <;> simp)

/-- C10: `updateBot` on an existing bot changes only `name`, `branch`,
`envVars` (merged over the existing map; an updated key overrides the
existing value, a key not in the update keeps its existing value) and
`updatedAt`; every other field is unchanged and the registry holds exactly
the updated entry.  On a non-existent id it returns `null` and leaves the
registry unchanged. -/
theorem claim10_updateBot_frame (reg : Registry) (botId : Str)
    (u : UpdateBotRequest) (now : Str) :
    (reg botId = none → updateBot reg botId u now = (none, reg)) ∧
    (∀ bot, reg botId = some bot →
      ∃ bot', updateBot reg botId u now = (some bot', reg.set botId bot') ∧
        bot'.id = bot.id ∧ bot'.sourceType = bot.sourceType ∧
        bot'.url = bot.url ∧ bot'.imageRef = bot.imageRef ∧
        bot'.status = bot.status ∧ bot'.containerIds = bot.containerIds ∧
        bot'.updateToken = bot.updateToken ∧ bot'.authHash = bot.authHash ∧
        bot'.hasBeenStarted = bot.hasBeenStarted ∧
        bot'.appName = bot.appName ∧ bot'.createdAt = bot.createdAt ∧
        bot'.updatedAt = now ∧
        (u.envVars = none → bot'.envVars = bot.envVars) ∧
        (∀ ev, u.envVars = some ev →
          (∀ k, objGet ev k = none →
            objGet bot'.envVars k = objGet bot.envVars k) ∧
          (∀ k v, (ev.map Prod.fst).Nodup → objGet ev k = some v →
            objGet bot'.envVars k = some v))) := by
  constructor
  · intro h
    rw [updateBot_eq, h]
  · intro bot h
    refine ⟨applyUpdate bot u now, by rw [updateBot_eq, h], ?_⟩
    obtain ⟨h1, h2, h3, h4, h5, h6, h7, h8, h9, h10, h11, h12, h13⟩ :=
      applyUpdate_frame bot u now
    refine ⟨h1, h2, h3, h4, h5, h6, h7, h8, h9, h10, h11, h12, ?_, ?_⟩
    · intro hev
      rw [h13, hev]
    · intro ev hev
      rw [h13, hev]
      exact ⟨fun k hk => objGet_objMerge_of_none hk,
        fun k v hnd hk => objGet_objMerge_of_some hnd hk⟩

/-- Witness inputs for C10. -/
def c10Bot : Bot :=
  { id := str "b1", name := str "old", sourceType := .git,
    url := some (str "https://x/y.git"), branch := some (str "main"),
    imageRef := none, status := .stopped, containerIds := [],
    updateToken := some (str "tok"), authHash := some (str "hash"),
    envVars := [(str "A", str "1"), (str "B", str "2")],
    hasBeenStarted := some false, appName := none,
    createdAt := str "t0", updatedAt := str "t0" }

def c10Reg : Registry := fun k => if k = str "b1" then some c10Bot else none

def c10Update : UpdateBotRequest :=
  { name := some (str "new"), branch := none,
    envVars := some [(str "B", str "9"), (str "C", str "3")] }

/-- Witness for C10 at a concrete registry, bot and update: the frame
branch is exercised on the existing bot `"b1"` and the null branch on the
absent id `"zz"`. -/
theorem claim10_updateBot_frame_witness :
    (c10Reg (str "b1") = some c10Bot ∧ c10Reg (str "zz") = none) ∧
    (∃ bot', updateBot c10Reg (str "b1") c10Update (str "t1")
        = (some bot', c10Reg.set (str "b1") bot') ∧
      bot'.id = c10Bot.id ∧ bot'.sourceType = c10Bot.sourceType ∧
      bot'.url = c10Bot.url ∧ bot'.imageRef = c10Bot.imageRef ∧
      bot'.status = c10Bot.status ∧ bot'.containerIds = c10Bot.containerIds ∧
      bot'.updateToken = c10Bot.updateToken ∧ bot'.authHash = c10Bot.authHash ∧
      bot'.hasBeenStarted = c10Bot.hasBeenStarted ∧
      bot'.appName = c10Bot.appName ∧ bot'.createdAt = c10Bot.createdAt ∧
      bot'.updatedAt = str "t1" ∧
      (c10Update.envVars = none → bot'.envVars = c10Bot.envVars) ∧
      (∀ ev, c10Update.envVars = some ev →
        (∀ k, objGet ev k = none →
          objGet bot'.envVars k = objGet c10Bot.envVars k) ∧
        (∀ k v, (ev.map Prod.fst).Nodup → objGet ev k = some v →
          objGet bot'.envVars k = some v))) ∧
    updateBot c10Reg (str "zz") c10Update (str "t1") = (none, c10Reg) :=
  ⟨⟨by decide, by decide⟩,
   (claim10_updateBot_frame c10Reg (str "b1") c10Update (str "t1")).2 c10Bot (by decide),
   (claim10_updateBot_frame c10Reg (str "zz") c10Update (str "t1")).1 (by decide)⟩

-- ─── C4: interface equations for the substitution scanners ────────────────

theorem replaceAllGo_fuel (pat v : Str) :
    ∀ (f₁ : Nat) (s : Str) (f₂ : Nat), s.length ≤ f₁ → s.length ≤ f₂ →
      replaceAllGo pat v f₁ s = replaceAllGo pat v f₂ s := by
  intro f₁
  induction f₁ with
  | zero =>
    intro s f₂ h₁ _
    cases s with
    | nil => cases f₂ <;> rfl
    | cons c rest => simp at h₁
  | succ f ih =>
    intro s f₂ h₁ h₂
    cases s with
    | nil => cases f₂ <;> rfl
    | cons c rest =>
      cases f₂ with
      | zero => simp at h₂
      | succ g =>
        simp only [replaceAllGo]
        simp only [List.length_cons] at h₁ h₂
        split
        · rw [ih _ g (by simp only [List.length_drop]; omega)
            (by simp only [List.length_drop]; omega)]
        · rw [ih rest g (by omega) (by omega)]

theorem replaceAll_nil (pat v : Str) : replaceAll pat v [] = [] := rfl

theorem replaceAll_cons (pat v : Str) (c : Char) (rest : Str) :
    replaceAll pat v (c :: rest) =
      if pat ≠ [] ∧ pat.isPrefixOf (c :: rest) then
        v ++ replaceAll pat v (List.drop pat.length (c :: rest))
      else
        c :: replaceAll pat v rest := by
  show replaceAllGo pat v (rest.length + 1) (c :: rest) = _
  simp only [replaceAllGo]
  split
  · rename_i h
    have hplen : 1 ≤ pat.length := List.length_pos.mpr h.1
    have hdrop : List.drop pat.length (c :: rest) = List.drop (pat.length - 1) rest := by
      nth_rewrite 1 [show pat.length = (pat.length - 1) + 1 by omega]
      rw [List.drop_succ_cons]
    rw [hdrop]
    rw [replaceAllGo_fuel pat v rest.length (List.drop (pat.length - 1) rest)
      ((List.drop (pat.length - 1) rest).length)
      (by simp only [List.length_drop]; omega) le_rfl]
    rfl
  · rw [show replaceAllGo pat v rest.length rest = replaceAll pat v rest from rfl]

theorem bareReplaceGo_fuel (key v : Str) :
    ∀ (f₁ : Nat) (s : Str) (f₂ : Nat), s.length ≤ f₁ → s.length ≤ f₂ →
      bareReplaceGo key v f₁ s = bareReplaceGo key v f₂ s := by
  intro f₁
  induction f₁ with
  | zero =>
    intro s f₂ h₁ _
    cases s with
    | nil => cases f₂ <;> rfl
    | cons c rest => simp at h₁
  | succ f ih =>
    intro s f₂ h₁ h₂
    cases s with
    | nil => cases f₂ <;> rfl
    | cons c rest =>
      cases f₂ with
      | zero => simp at h₂
      | succ g =>
        simp only [bareReplaceGo]
        simp only [List.length_cons] at h₁ h₂
        split
        · rw [ih _ g (by simp only [List.length_drop]; omega)
            (by simp only [List.length_drop]; omega)]
        · rw [ih rest g (by omega) (by omega)]

theorem bareReplace_nil (key v : Str) : bareReplace key v [] = [] := rfl

theorem bareReplace_cons (key v : Str) (c : Char) (rest : Str) :
    bareReplace key v (c :: rest) =
      if bareMatch key (c :: rest) then
        v ++ bareReplace key v (List.drop (key.length + 1) (c :: rest))
      else
        c :: bareReplace key v rest := by
  show bareReplaceGo key v (rest.length + 1) (c :: rest) = _
  simp only [bareReplaceGo]
  split
  · rw [List.drop_succ_cons]
    rw [bareReplaceGo_fuel key v rest.length (List.drop key.length rest)
      ((List.drop key.length rest).length)
      (by simp only [List.length_drop]; omega) le_rfl]
    rfl
  · rw [show bareReplaceGo key v rest.length rest = bareReplace key v rest from rfl]

/-- Strong induction on string length, used to follow the scanners'
skip-ahead recursion. -/
theorem strLengthInduction {P : Str → Prop}
    (ind : ∀ s : Str, (∀ t : Str, t.length < s.length → P t) → P s) :
    ∀ s, P s := by
  intro s
  generalize hn : s.length = n
  induction n using Nat.strong_induction_on generalizing s with
  | _ n IH => exact ind s fun t ht => IH t.length (hn ▸ ht) t rfl

-- ─── C4: placeholder segments ─────────────────────────────────────────────

/-- A value contains no `$` character. -/
def noDollar (l : Str) : Bool := l.all (· ≠ '$')

/-- A placeholder name: non-empty, all identifier characters. -/
def keyOk (k : Str) : Bool := !k.isEmpty && k.all identChar

/-- A segment of a document in which every `$` begins a placeholder:
literal text (no `$`), a brace placeholder `${k}`, or a bare placeholder
`$k` (with `k` the maximal identifier run). -/
inductive Seg where
  | lit (l : Str)
  | brace (k : Str)
  | bare (k : Str)
deriving DecidableEq, Repr

/-- Rendering a segment back to text. -/
def rendSeg : Seg → Str
  | .lit l => l
  | .brace k => bracePat k
  | .bare k => '$' :: k

/-- Rendering a segment list to a document. -/
def rend : List Seg → Str
  | [] => []
  | sg :: r => rendSeg sg ++ rend r

/-- The character following a bare placeholder must exist only as a
non-identifier, non-`$` literal (or nothing): this is what makes `$k`
match with its word boundary and keeps adjacent text from merging into a
new placeholder after replacement. -/
def safeAfter : List Seg → Bool
  | [] => true
  | .lit (c :: _) :: _ => !identChar c && c ≠ '$'
  | _ => false

/-- Well-formed segment lists. -/
def wfSegs : List Seg → Bool
  | [] => true
  | .lit l :: r => noDollar l && wfSegs r
  | .brace k :: r => keyOk k && wfSegs r
  | .bare k :: r => keyOk k && safeAfter r && wfSegs r

/-- The brace-phase action of one substitution key on a segment. -/
def braceStep (k v : Str) : Seg → Seg
  | .lit l => .lit l
  | .brace k' => if k' = k then .lit v else .brace k'
  | .bare k' => .bare k'

/-- The bare-phase action of one substitution key on a segment. -/
def bareStep (k v : Str) : Seg → Seg
  | .lit l => .lit l
  | .brace k' => .brace k'
  | .bare k' => if k' = k then .lit v else .bare k'

/-- The combined action of one key on a segment. -/
def stepSeg (k v : Str) : Seg → Seg
  | .lit l => .lit l
  | .brace k' => if k' = k then .lit v else .brace k'
  | .bare k' => if k' = k then .lit v else .bare k'

/-- The action of a whole variable list on a segment. -/
def substSegVars (vars : List (Str × Str)) (sg : Seg) : Seg :=
  vars.foldl (fun sg kv => stepSeg kv.1 kv.2 sg) sg

-- ─── C4: passthrough and no-confusion lemmas ──────────────────────────────

theorem noDollar_head {l : Str} (h : noDollar l = true) {c : Char}
    {r : Str} (hc : l = c :: r) : c ≠ '$' ∧ noDollar r = true := by
  subst hc
  simp only [noDollar, List.all_cons, Bool.and_eq_true] at h
  exact ⟨by simpa using h.1, h.2⟩

theorem keyOk_unpack {k : Str} (h : keyOk k = true) :
    k ≠ [] ∧ ∀ c ∈ k, identChar c = true := by
  simp only [keyOk, Bool.and_eq_true, List.all_eq_true] at h
  refine ⟨?_, h.2⟩
  cases k with
  | nil => simp at h
  | cons _ _ => simp

theorem identChar_ne_dollar {c : Char} (h : identChar c = true) : c ≠ '$' := by
  intro hc
  subst hc
  simp [identChar] at h

theorem identChar_ne_lbrace {c : Char} (h : identChar c = true) : c ≠ '{' := by
  intro hc
  subst hc
  simp [identChar] at h

theorem identChar_ne_rbrace {c : Char} (h : identChar c = true) : c ≠ '}' := by
  intro hc
  subst hc
  simp [identChar] at h

theorem keyOk_noDollar {k : Str} (h : keyOk k = true) : noDollar k = true := by
  obtain ⟨_, hall⟩ := keyOk_unpack h
  simp only [noDollar, List.all_eq_true]
  intro c hc
  simpa using identChar_ne_dollar (hall c hc)

/-- `replaceAll` passes over `$`-free text. -/
theorem replaceAll_append_noDollar {p' v : Str}
    {x : Str} (hx : noDollar x = true) (y : Str) :
    replaceAll ('$' :: p') v (x ++ y) = x ++ replaceAll ('$' :: p') v y := by
  induction x with
  | nil => simp
  | cons c x' ih =>
    obtain ⟨hc, hx'⟩ := noDollar_head hx rfl
    have hneg : ¬ (('$' :: p') ≠ [] ∧ ('$' :: p').isPrefixOf (c :: (x' ++ y))) := by
      rintro ⟨-, hpre⟩
      rw [List.isPrefixOf_iff_prefix, List.cons_prefix_cons] at hpre
      exact hc hpre.1.symm
    rw [List.cons_append, replaceAll_cons, if_neg hneg, ih hx', List.cons_append]

/-- `bareReplace` passes over `$`-free text. -/
theorem bareReplace_append_noDollar {key v : Str}
    {x : Str} (hx : noDollar x = true) (y : Str) :
    bareReplace key v (x ++ y) = x ++ bareReplace key v y := by
  induction x with
  | nil => simp
  | cons c x' ih =>
    obtain ⟨hc, hx'⟩ := noDollar_head hx rfl
    have hneg : ¬ bareMatch key (c :: (x' ++ y)) = true := by
      simp only [bareMatch, Bool.and_eq_true]
      rintro ⟨hpre, -⟩
      rw [List.isPrefixOf_iff_prefix, List.cons_prefix_cons] at hpre
      exact hc hpre.1.symm
    rw [List.cons_append, bareReplace_cons, if_neg hneg, ih hx', List.cons_append]

theorem replaceAll_noDollar {p' v : Str} {x : Str} (hx : noDollar x = true) :
    replaceAll ('$' :: p') v x = x := by
  have h := @replaceAll_append_noDollar p' v x hx []
  simpa [replaceAll_nil] using h

theorem bareReplace_noDollar {key v : Str} {x : Str} (hx : noDollar x = true) :
    bareReplace key v x = x := by
  have h := @bareReplace_append_noDollar key v x hx []
  simpa [bareReplace_nil] using h

/-- Two distinct identifier keys cannot be confused in brace patterns:
`{k}` is never a prefix of `{k'}…` when `k ≠ k'`. -/
theorem brace_key_noconfuse {k k' : Str}
    (hk : ∀ c ∈ k, identChar c = true) (hk' : ∀ c ∈ k', identChar c = true)
    (hne : k ≠ k') (t : Str) :
    ¬ (k ++ ['}']) <+: (k' ++ '}' :: t) := by
  induction k generalizing k' with
  | nil =>
    cases k' with
    | nil => exact absurd rfl hne
    | cons d k₂ =>
      intro hcon
      rw [List.nil_append, List.cons_append, List.cons_prefix_cons] at hcon
      exact identChar_ne_rbrace (hk' d (by simp)) hcon.1.symm
  | cons a k₂ ih =>
    cases k' with
    | nil =>
      intro hcon
      rw [List.cons_append, List.nil_append, List.cons_prefix_cons] at hcon
      exact identChar_ne_rbrace (hk a (by simp)) hcon.1
    | cons b k₂' =>
      intro hcon
      rw [List.cons_append, List.cons_append, List.cons_prefix_cons] at hcon
      obtain ⟨hab, hcon'⟩ := hcon
      subst hab
      have hne' : k₂ ≠ k₂' := fun h => hne (by rw [h])
      exact ih (fun c hc => hk c (by simp [hc]))
        (fun c hc => hk' c (by simp [hc])) hne' hcon'

theorem bracePat_eq (k : Str) : bracePat k = '$' :: ('{' :: (k ++ ['}'])) := rfl

theorem replaceAll_head_match {pat : Str} (v : Str) (hne : pat ≠ []) (y : Str) :
    replaceAll pat v (pat ++ y) = v ++ replaceAll pat v y := by
  cases pat with
  | nil => exact absurd rfl hne
  | cons c p' =>
    rw [List.cons_append, replaceAll_cons, if_pos]
    · congr 1
      have : List.drop (c :: p').length (c :: (p' ++ y)) = y := by
        simp only [List.length_cons, List.drop_succ_cons]
        exact List.drop_left p' y
      rw [this]
    · refine ⟨hne, ?_⟩
      rw [List.isPrefixOf_iff_prefix, ← List.cons_append]
      exact List.prefix_append _ _

theorem noDollar_braceBody {k : Str} (hk : keyOk k = true) :
    noDollar ('{' :: (k ++ ['}'])) = true := by
  have := keyOk_noDollar hk
  simp only [noDollar, List.all_cons, List.all_append, Bool.and_eq_true] at *
  refine ⟨by decide, this, by decide⟩

/-- The brace phase of one substitution key maps well-formed segments
pointwise. -/
theorem replaceAll_brace_rend {k v : Str} (hk : keyOk k = true) :
    ∀ {segs : List Seg}, wfSegs segs = true →
      replaceAll (bracePat k) v (rend segs) = rend (segs.map (braceStep k v)) := by
  intro segs
  induction segs with
  | nil => intro _; exact replaceAll_nil _ _
  | cons sg r ih =>
    intro hwf
    cases sg with
    | lit l =>
      have h1 : noDollar l = true ∧ wfSegs r = true := by
        simpa [wfSegs, Bool.and_eq_true] using hwf
      show replaceAll (bracePat k) v (l ++ rend r) = l ++ rend (r.map _)
      rw [bracePat_eq, replaceAll_append_noDollar h1.1, ← bracePat_eq, ih h1.2]
    | brace k' =>
      have h1 : keyOk k' = true ∧ wfSegs r = true := by
        simpa [wfSegs, Bool.and_eq_true] using hwf
      by_cases hkk : k' = k
      · subst hkk
        show replaceAll (bracePat k') v (bracePat k' ++ rend r) = _
        rw [replaceAll_head_match v (by simp [bracePat_eq]) (rend r), ih h1.2]
        simp [braceStep, rendSeg, rend]
      · show replaceAll (bracePat k) v (bracePat k' ++ rend r) = _
        have hsplit : bracePat k' ++ rend r =
            '$' :: (('{' :: (k' ++ ['}'])) ++ rend r) := by
          rw [bracePat_eq, List.cons_append]
        rw [hsplit, replaceAll_cons, if_neg]
        · rw [bracePat_eq, replaceAll_append_noDollar (noDollar_braceBody h1.1),
            ← bracePat_eq, ih h1.2]
          simp only [List.map_cons, rend]
          rw [show rendSeg (braceStep k v (.brace k')) = bracePat k' by
            simp [braceStep, hkk, rendSeg]]
          rw [bracePat_eq, List.cons_append]
          simp [List.append_assoc]
        · rintro ⟨-, hpre⟩
          rw [List.isPrefixOf_iff_prefix, bracePat_eq, List.cons_prefix_cons] at hpre
          have hpre2 := hpre.2
          rw [show ('{' :: (k' ++ ['}'])) ++ rend r =
            '{' :: (k' ++ '}' :: rend r) by simp, List.cons_prefix_cons] at hpre2
          exact brace_key_noconfuse (keyOk_unpack hk).2 (keyOk_unpack h1.1).2
            (Ne.symm hkk) (rend r) hpre2.2
    | bare k' =>
      have h1 : keyOk k' = true ∧ safeAfter r = true ∧ wfSegs r = true := by
        simpa [wfSegs, Bool.and_eq_true, and_assoc] using hwf
      show replaceAll (bracePat k) v (('$' :: k') ++ rend r) = _
      have hsplit : ('$' :: k') ++ rend r = '$' :: (k' ++ rend r) := by
        rw [List.cons_append]
      rw [hsplit, replaceAll_cons, if_neg]
      · rw [bracePat_eq, replaceAll_append_noDollar (keyOk_noDollar h1.1),
          ← bracePat_eq, ih h1.2.2]
        simp [braceStep, rend, rendSeg]
      · rintro ⟨-, hpre⟩
        rw [List.isPrefixOf_iff_prefix, bracePat_eq, List.cons_prefix_cons] at hpre
        have hpre2 := hpre.2
        obtain ⟨hk'ne, hk'all⟩ := keyOk_unpack h1.1
        cases hd : k' with
        | nil => exact hk'ne hd
        | cons d k₂ =>
          rw [hd, List.cons_append, List.cons_prefix_cons] at hpre2
          exact identChar_ne_lbrace (hk'all d (by simp [hd])) hpre2.1.symm

/-- Generalization of the C2 prefix fact: if `p` and `root` are not
prefixes of one another, `p` is not a prefix of any `root ++ t`. -/
theorem not_prefix_append_of {p root : Str}
    (hp1 : ¬ p <+: root) (hp2 : ¬ root <+: p) (t : Str) : ¬ p <+: root ++ t := by
  rintro ⟨u, hu⟩
  rcases List.append_eq_append_iff.mp hu with ⟨a, ha, _⟩ | ⟨c', hc', _⟩
  · exact hp1 ⟨a, ha.symm⟩
  · exact hp2 ⟨c', hc'.symm⟩

theorem safeAfter_boundary {r : List Seg} (h : safeAfter r = true) :
    boundaryOk (rend r) = true := by
  cases r with
  | nil => rfl
  | cons sg r' =>
    cases sg with
    | lit l =>
      cases l with
      | nil => simp [safeAfter] at h
      | cons c l' =>
        simp only [safeAfter, Bool.and_eq_true] at h
        show boundaryOk ((c :: l') ++ rend r') = true
        simp only [List.cons_append, boundaryOk]
        exact h.1
    | brace k => simp [safeAfter] at h
    | bare k => simp [safeAfter] at h

theorem safeAfter_not_ident_prefix {r : List Seg} (h : safeAfter r = true)
    {e : Char} (he : identChar e = true) (m : Str) :
    ¬ (e :: m) <+: rend r := by
  cases r with
  | nil =>
    intro hcon
    rw [List.prefix_iff_eq_take] at hcon
    simp [rend] at hcon
  | cons sg r' =>
    cases sg with
    | lit l =>
      cases l with
      | nil => simp [safeAfter] at h
      | cons c l' =>
        simp only [safeAfter, Bool.and_eq_true] at h
        intro hcon
        rw [show rend (Seg.lit (c :: l') :: r') = c :: (l' ++ rend r') from rfl,
          List.cons_prefix_cons] at hcon
        rw [← hcon.1] at h
        simp [he] at h
    | brace k => simp [safeAfter] at h
    | bare k => simp [safeAfter] at h

/-- The bare phase of one substitution key maps well-formed segments
pointwise. -/
theorem bareReplace_bare_rend {k v : Str} (hk : keyOk k = true) :
    ∀ {segs : List Seg}, wfSegs segs = true →
      bareReplace k v (rend segs) = rend (segs.map (bareStep k v)) := by
  intro segs
  induction segs with
  | nil => intro _; exact bareReplace_nil _ _
  | cons sg r ih =>
    intro hwf
    cases sg with
    | lit l =>
      have h1 : noDollar l = true ∧ wfSegs r = true := by
        simpa [wfSegs, Bool.and_eq_true] using hwf
      show bareReplace k v (l ++ rend r) = l ++ rend (r.map _)
      rw [bareReplace_append_noDollar h1.1, ih h1.2]
    | brace k' =>
      have h1 : keyOk k' = true ∧ wfSegs r = true := by
        simpa [wfSegs, Bool.and_eq_true] using hwf
      show bareReplace k v (bracePat k' ++ rend r) = _
      have hsplit : bracePat k' ++ rend r =
          '$' :: (('{' :: (k' ++ ['}'])) ++ rend r) := by
        rw [bracePat_eq, List.cons_append]
      rw [hsplit, bareReplace_cons, if_neg]
      · rw [bareReplace_append_noDollar (noDollar_braceBody h1.1), ih h1.2]
        simp only [List.map_cons, rend]
        rw [show rendSeg (bareStep k v (.brace k')) = bracePat k' from rfl,
          bracePat_eq, List.cons_append]
        simp [List.append_assoc]
      · simp only [bareMatch, Bool.and_eq_true]
        rintro ⟨hpre, -⟩
        rw [List.isPrefixOf_iff_prefix, List.cons_prefix_cons] at hpre
        have hpre2 := hpre.2
        obtain ⟨hkne, hkall⟩ := keyOk_unpack hk
        cases hd : k with
        | nil => exact hkne hd
        | cons d k₂ =>
          rw [hd, show ('{' :: (k' ++ ['}'])) ++ rend r =
            '{' :: ((k' ++ ['}']) ++ rend r) from rfl,
            List.cons_prefix_cons] at hpre2
          exact identChar_ne_lbrace (hkall d (by simp [hd])) hpre2.1
    | bare k' =>
      have h1 : keyOk k' = true ∧ safeAfter r = true ∧ wfSegs r = true := by
        simpa [wfSegs, Bool.and_eq_true, and_assoc] using hwf
      show bareReplace k v (('$' :: k') ++ rend r) = _
      have hsplit : ('$' :: k') ++ rend r = '$' :: (k' ++ rend r) := by
        rw [List.cons_append]
      by_cases hkk : k' = k
      · subst hkk
        have hmatch : bareMatch k' ('$' :: (k' ++ rend r)) = true := by
          simp only [bareMatch, Bool.and_eq_true]
          constructor
          · rw [List.isPrefixOf_iff_prefix, List.cons_prefix_cons]
            exact ⟨rfl, List.prefix_append _ _⟩
          · rw [show List.drop (k'.length + 1) ('$' :: (k' ++ rend r)) =
              rend r by rw [List.drop_succ_cons, List.drop_left]]
            exact safeAfter_boundary h1.2.1
        rw [hsplit, bareReplace_cons, if_pos hmatch]
        rw [show List.drop (k'.length + 1) ('$' :: (k' ++ rend r)) =
          rend r by rw [List.drop_succ_cons, List.drop_left]]
        rw [ih h1.2.2]
        simp [bareStep, rend, rendSeg]
      · have hnomatch : ¬ bareMatch k ('$' :: (k' ++ rend r)) = true := by
          simp only [bareMatch, Bool.and_eq_true]
          rintro ⟨hpre, hbnd⟩
          rw [List.isPrefixOf_iff_prefix, List.cons_prefix_cons] at hpre
          have hpre2 := hpre.2
          by_cases h1p : k <+: k'
          · -- k is a proper prefix of k': the boundary character is an
            -- identifier character of k', so the lookahead fails.
            obtain ⟨u, hu⟩ := h1p
            cases u with
            | nil => exact hkk (by rw [← hu]; simp)
            | cons d m =>
              have hident : identChar d = true := by
                refine (keyOk_unpack h1.1).2 d ?_
                rw [← hu]
                simp
              rw [show List.drop (k.length + 1) ('$' :: (k' ++ rend r)) =
                  List.drop k.length (k' ++ rend r) from List.drop_succ_cons,
                ← hu] at hbnd
              rw [show (k ++ d :: m) ++ rend r = k ++ (d :: (m ++ rend r)) by
                simp, List.drop_left] at hbnd
              simp only [boundaryOk, hident] at hbnd
              simp at hbnd
          · by_cases h2p : k' <+: k
            · -- k' is a proper prefix of k: matching k would need identifier
              -- characters right after the placeholder, excluded by safeAfter.
              obtain ⟨u, hu⟩ := h2p
              cases u with
              | nil => exact hkk (by rw [← hu]; simp)
              | cons e m =>
                have hident : identChar e = true := by
                  refine (keyOk_unpack hk).2 e ?_
                  rw [← hu]
                  simp
                rw [← hu, show (k' ++ e :: m) <+: k' ++ rend r ↔
                    (e :: m) <+: rend r from List.prefix_append_right_inj k']
                  at hpre2
                exact safeAfter_not_ident_prefix h1.2.1 hident m hpre2
            · exact not_prefix_append_of h1p h2p (rend r) hpre2
        rw [hsplit, bareReplace_cons, if_neg hnomatch]
        rw [bareReplace_append_noDollar (keyOk_noDollar h1.1), ih h1.2.2]
        simp only [List.map_cons, rend]
        rw [show rendSeg (bareStep k v (.bare k')) = '$' :: k' by
          simp [bareStep, hkk, rendSeg]]
        rw [List.cons_append]

-- ─── C4: well-formedness preservation and the substitution master lemma ──

theorem safeAfter_map {f : Seg → Seg} (hf : ∀ l, f (.lit l) = .lit l)
    {r : List Seg} (h : safeAfter r = true) : safeAfter (r.map f) = true := by
  cases r with
  | nil => rfl
  | cons sg r' =>
    cases sg with
    | lit l =>
      cases l with
      | nil => simp [safeAfter] at h
      | cons c l' =>
        simp only [List.map_cons, hf]
        exact h
    | brace k => simp [safeAfter] at h
    | bare k => simp [safeAfter] at h

theorem wfSegs_map {f : Seg → Seg} (hlit : ∀ l, f (.lit l) = .lit l)
    (hf : ∀ sg, f sg = sg ∨ ∃ l, f sg = .lit l ∧ noDollar l = true) :
    ∀ {segs : List Seg}, wfSegs segs = true → wfSegs (segs.map f) = true := by
  intro segs
  induction segs with
  | nil => intro _; rfl
  | cons sg r ih =>
    intro hwf
    cases sg with
    | lit l =>
      have h1 : noDollar l = true ∧ wfSegs r = true := by
        simpa [wfSegs, Bool.and_eq_true] using hwf
      simp only [List.map_cons, hlit]
      simp [wfSegs, h1.1, ih h1.2]
    | brace k' =>
      have h1 : keyOk k' = true ∧ wfSegs r = true := by
        simpa [wfSegs, Bool.and_eq_true] using hwf
      rcases hf (.brace k') with heq | ⟨l, heq, hl⟩
      · simp only [List.map_cons, heq]
        simp [wfSegs, h1.1, ih h1.2]
      · simp only [List.map_cons, heq]
        simp [wfSegs, hl, ih h1.2]
    | bare k' =>
      have h1 : keyOk k' = true ∧ safeAfter r = true ∧ wfSegs r = true := by
        simpa [wfSegs, Bool.and_eq_true, and_assoc] using hwf
      rcases hf (.bare k') with heq | ⟨l, heq, hl⟩
      · simp only [List.map_cons, heq]
        simp [wfSegs, h1.1, ih h1.2.2, safeAfter_map hlit h1.2.1]
      · simp only [List.map_cons, heq]
        simp [wfSegs, hl, ih h1.2.2]

theorem braceStep_shape {k v : Str} (hv : noDollar v = true) (sg : Seg) :
    braceStep k v sg = sg ∨ ∃ l, braceStep k v sg = .lit l ∧ noDollar l = true := by
  cases sg with
  | lit l => exact Or.inl rfl
  | brace k' =>
    by_cases h : k' = k
    · exact Or.inr ⟨v, by simp [braceStep, h], hv⟩
    · exact Or.inl (by simp [braceStep, h])
  | bare k' => exact Or.inl rfl

theorem bareStep_shape {k v : Str} (hv : noDollar v = true) (sg : Seg) :
    bareStep k v sg = sg ∨ ∃ l, bareStep k v sg = .lit l ∧ noDollar l = true := by
  cases sg with
  | lit l => exact Or.inl rfl
  | brace k' => exact Or.inl rfl
  | bare k' =>
    by_cases h : k' = k
    · exact Or.inr ⟨v, by simp [bareStep, h], hv⟩
    · exact Or.inl (by simp [bareStep, h])

theorem stepSeg_shape {k v : Str} (hv : noDollar v = true) (sg : Seg) :
    stepSeg k v sg = sg ∨ ∃ l, stepSeg k v sg = .lit l ∧ noDollar l = true := by
  cases sg with
  | lit l => exact Or.inl rfl
  | brace k' =>
    by_cases h : k' = k
    · exact Or.inr ⟨v, by simp [stepSeg, h], hv⟩
    · exact Or.inl (by simp [stepSeg, h])
  | bare k' =>
    by_cases h : k' = k
    · exact Or.inr ⟨v, by simp [stepSeg, h], hv⟩
    · exact Or.inl (by simp [stepSeg, h])

theorem bareStep_braceStep (k v : Str) (sg : Seg) :
    bareStep k v (braceStep k v sg) = stepSeg k v sg := by
  cases sg with
  | lit l => rfl
  | brace k' =>
    by_cases h : k' = k <;> simp [braceStep, bareStep, stepSeg, h]
  | bare k' =>
    by_cases h : k' = k <;> simp [braceStep, bareStep, stepSeg, h]

/-- One key's substitution step maps well-formed segments pointwise. -/
theorem substStep_rend {k v : Str} (hk : keyOk k = true)
    (hv : noDollar v = true) {segs : List Seg} (hwf : wfSegs segs = true) :
    substStep (rend segs) (k, v) = rend (segs.map (stepSeg k v)) := by
  show bareReplace k v (replaceAll (bracePat k) v (rend segs)) = _
  rw [replaceAll_brace_rend hk hwf]
  rw [bareReplace_bare_rend hk
    (wfSegs_map (fun l => rfl) (braceStep_shape hv) hwf)]
  rw [List.map_map]
  exact congrArg rend (List.map_congr_left fun sg _ => bareStep_braceStep k v sg)

/-- The whole substitution pass maps well-formed segments pointwise. -/
theorem substituteVars_rend :
    ∀ {vars : List (Str × Str)},
      (∀ kv ∈ vars, keyOk kv.1 = true) → (∀ kv ∈ vars, noDollar kv.2 = true) →
      ∀ {segs : List Seg}, wfSegs segs = true →
      substituteVars vars (rend segs) = rend (segs.map (substSegVars vars)) := by
  intro vars
  induction vars with
  | nil =>
    intro _ _ segs _
    show rend segs = _
    rw [show segs.map (substSegVars []) = segs from
      List.map_congr_left (fun sg _ => rfl) |>.trans (List.map_id segs)]
  | cons kv rest ih =>
    intro hkeys hvals segs hwf
    have hk : keyOk kv.1 = true := hkeys kv (by simp)
    have hv : noDollar kv.2 = true := hvals kv (by simp)
    show substituteVars rest (substStep (rend segs) kv) = _
    rw [show substStep (rend segs) kv = substStep (rend segs) (kv.1, kv.2) by rfl]
    rw [substStep_rend hk hv hwf]
    rw [ih (fun p hp => hkeys p (by simp [hp])) (fun p hp => hvals p (by simp [hp]))
      (wfSegs_map (fun l => rfl) (stepSeg_shape hv) hwf)]
    rw [List.map_map]
    exact congrArg rend (List.map_congr_left fun sg _ => rfl)

theorem wfSegs_substSegVars :
    ∀ {vars : List (Str × Str)}, (∀ kv ∈ vars, noDollar kv.2 = true) →
    ∀ {segs : List Seg}, wfSegs segs = true →
      wfSegs (segs.map (substSegVars vars)) = true := by
  intro vars
  induction vars with
  | nil =>
    intro _ segs hwf
    rw [show segs.map (substSegVars []) = segs from
      List.map_congr_left (fun sg _ => rfl) |>.trans (List.map_id segs)]
    exact hwf
  | cons kv rest ih =>
    intro hvals segs hwf
    have hv : noDollar kv.2 = true := hvals kv (by simp)
    have h1 : segs.map (substSegVars (kv :: rest)) =
        (segs.map (stepSeg kv.1 kv.2)).map (substSegVars rest) := by
      rw [List.map_map]
      exact List.map_congr_left fun sg _ => rfl
    rw [h1]
    exact ih (fun p hp => hvals p (by simp [hp]))
      (wfSegs_map (fun l => rfl) (stepSeg_shape hv) hwf)

theorem substSegVars_lit (vars : List (Str × Str)) (l : Str) :
    substSegVars vars (.lit l) = .lit l := by
  induction vars with
  | nil => rfl
  | cons kv rest ih => exact ih

theorem substSegVars_brace :
    ∀ {vars : List (Str × Str)} {k : Str},
      (objGet vars k = none → substSegVars vars (.brace k) = .brace k) ∧
      (∀ v, objGet vars k = some v → substSegVars vars (.brace k) = .lit v) := by
  intro vars
  induction vars with
  | nil => exact fun {k} => ⟨fun _ => rfl, fun v h => Option.noConfusion h⟩
  | cons kv rest ih =>
    intro k
    constructor
    · intro h
      simp only [objGet] at h
      by_cases hk : kv.1 = k
      · rw [if_pos hk] at h
        exact Option.noConfusion h
      · rw [if_neg hk] at h
        show substSegVars rest (stepSeg kv.1 kv.2 (.brace k)) = .brace k
        rw [show stepSeg kv.1 kv.2 (.brace k) = .brace k by
          simp only [stepSeg]
          rw [if_neg (Ne.symm hk)]]
        exact ih.1 h
    · intro v h
      simp only [objGet] at h
      by_cases hk : kv.1 = k
      · rw [if_pos hk] at h
        show substSegVars rest (stepSeg kv.1 kv.2 (.brace k)) = .lit v
        rw [show stepSeg kv.1 kv.2 (.brace k) = .lit kv.2 by
          simp only [stepSeg]
          rw [if_pos hk.symm]]
        rw [substSegVars_lit]
        exact congrArg Seg.lit (Option.some_inj.mp h)
      · rw [if_neg hk] at h
        show substSegVars rest (stepSeg kv.1 kv.2 (.brace k)) = .lit v
        rw [show stepSeg kv.1 kv.2 (.brace k) = .brace k by
          simp only [stepSeg]
          rw [if_neg (Ne.symm hk)]]
        exact ih.2 v h

theorem substSegVars_bare :
    ∀ {vars : List (Str × Str)} {k : Str},
      (objGet vars k = none → substSegVars vars (.bare k) = .bare k) ∧
      (∀ v, objGet vars k = some v → substSegVars vars (.bare k) = .lit v) := by
  intro vars
  induction vars with
  | nil => exact fun {k} => ⟨fun _ => rfl, fun v h => Option.noConfusion h⟩
  | cons kv rest ih =>
    intro k
    constructor
    · intro h
      simp only [objGet] at h
      by_cases hk : kv.1 = k
      · rw [if_pos hk] at h
        exact Option.noConfusion h
      · rw [if_neg hk] at h
        show substSegVars rest (stepSeg kv.1 kv.2 (.bare k)) = .bare k
        rw [show stepSeg kv.1 kv.2 (.bare k) = .bare k by
          simp only [stepSeg]
          rw [if_neg (Ne.symm hk)]]
        exact ih.1 h
    · intro v h
      simp only [objGet] at h
      by_cases hk : kv.1 = k
      · rw [if_pos hk] at h
        show substSegVars rest (stepSeg kv.1 kv.2 (.bare k)) = .lit v
        rw [show stepSeg kv.1 kv.2 (.bare k) = .lit kv.2 by
          simp only [stepSeg]
          rw [if_pos hk.symm]]
        rw [substSegVars_lit]
        exact congrArg Seg.lit (Option.some_inj.mp h)
      · rw [if_neg hk] at h
        show substSegVars rest (stepSeg kv.1 kv.2 (.bare k)) = .lit v
        rw [show stepSeg kv.1 kv.2 (.bare k) = .bare k by
          simp only [stepSeg]
          rw [if_neg (Ne.symm hk)]]
        exact ih.2 v h

theorem substSegVars_idem (vars : List (Str × Str)) (sg : Seg) :
    substSegVars vars (substSegVars vars sg) = substSegVars vars sg := by
  cases sg with
  | lit l => rw [substSegVars_lit, substSegVars_lit]
  | brace k =>
    cases h : objGet vars k with
    | none => rw [substSegVars_brace.1 h, substSegVars_brace.1 h]
    | some v => rw [substSegVars_brace.2 v h, substSegVars_lit]
  | bare k =>
    cases h : objGet vars k with
    | none => rw [substSegVars_bare.1 h, substSegVars_bare.1 h]
    | some v => rw [substSegVars_bare.2 v h, substSegVars_lit]

-- ─── C4: claim, counterexample and witness ────────────────────────────────

/-- Does `s`, starting right after a `$`, spell a brace placeholder
`{NAME}` with a non-empty identifier name? -/
def bracedAfterDollar (s : Str) : Bool :=
  match s with
  | '{' :: rest =>
    let nm := rest.takeWhile identChar
    (!nm.isEmpty) &&
      (match rest.drop nm.length with
       | '}' :: _ => true
       | _ => false)
  | _ => false

/-- The original claim's hypothesis on variable values: no
placeholder-shaped substring, i.e. no `$NAME` (a `$` followed by an
identifier character) and no `${NAME}` occurrence. -/
def placeholderFree : Str → Bool
  | [] => true
  | c :: rest =>
    if c = '$' then
      (match rest with
       | [] => true
       | c2 :: _ => !identChar c2 && !bracedAfterDollar rest) && placeholderFree rest
    else placeholderFree rest

/-- The C4 counterexample bot: two environment variables whose values are
placeholder-free, the second value being the first variable's name. -/
def c4Bot : Bot :=
  { id := str "cb", name := str "c4", sourceType := .git, url := none,
    branch := none, imageRef := none, status := .stopped, containerIds := [],
    updateToken := some (str "feedface"), authHash := some (str "deadbeef"),
    envVars := [(str "ZZ", str "x"), (str "AA", str "ZZ")],
    hasBeenStarted := none, appName := none,
    createdAt := str "t0", updatedAt := str "t0" }

def c4Env : SubstEnv :=
  { PUID := none, PGID := none, REF_DOMAIN := none, REF_SCHEME := none,
    REF_PORT := none }

/-- The counterexample document `$${AA}`. -/
def c4Doc : Str := ['$', '$', '{', 'A', 'A', '}']

/-- C4 counterexample: every substitution value of `c4Bot` is
placeholder-free, yet substitution on `$${AA}` is not idempotent: one pass
yields `$ZZ` (the replacement of `${AA}` lands right after a literal `$`,
creating a fresh placeholder), a second pass yields `x`. -/
theorem claim4_counterexample :
    (∀ kv ∈ buildSubstitutionVariables c4Env (str "r0") (str "r1") c4Bot,
      placeholderFree kv.2 = true) ∧
    applyVariableSubstitution c4Env (str "r0") (str "r1") c4Doc c4Bot =
      str "$ZZ" ∧
    applyVariableSubstitution c4Env (str "r0") (str "r1")
      (applyVariableSubstitution c4Env (str "r0") (str "r1") c4Doc c4Bot)
      c4Bot = str "x" ∧
    applyVariableSubstitution c4Env (str "r0") (str "r1")
      (applyVariableSubstitution c4Env (str "r0") (str "r1") c4Doc c4Bot)
      c4Bot ≠
    applyVariableSubstitution c4Env (str "r0") (str "r1") c4Doc c4Bot := by
  refine ⟨by decide, by decide, by decide, by decide⟩

/-- C4 (corrected): variable substitution is idempotent on documents in
which every `$` begins a placeholder — literal `$`-free text, `${k}`
segments, and maximal bare `$k` segments followed by a non-identifier,
non-`$` character (or the end) — with identifier-shaped variable names
and `$`-free variable values.  Placeholders whose name is bound by no
variable are left verbatim.  (Without the document-side condition the
claim fails, see the counterexample: a replacement can land next to a `$`
and create a new placeholder.) -/
theorem claim4_substitution_idempotent (env : SubstEnv)
    (randAuth randApi : Str) (bot : Bot) (segs : List Seg)
    (hwf : wfSegs segs = true)
    (hkeys : ∀ kv ∈ buildSubstitutionVariables env randAuth randApi bot,
      keyOk kv.1 = true)
    (hvals : ∀ kv ∈ buildSubstitutionVariables env randAuth randApi bot,
      noDollar kv.2 = true) :
    applyVariableSubstitution env randAuth randApi
        (applyVariableSubstitution env randAuth randApi (rend segs) bot) bot
      = applyVariableSubstitution env randAuth randApi (rend segs) bot ∧
    applyVariableSubstitution env randAuth randApi (rend segs) bot
      = rend (segs.map
          (substSegVars (buildSubstitutionVariables env randAuth randApi bot))) ∧
    (∀ k, objGet (buildSubstitutionVariables env randAuth randApi bot) k = none →
      substSegVars (buildSubstitutionVariables env randAuth randApi bot)
        (.brace k) = .brace k ∧
      substSegVars (buildSubstitutionVariables env randAuth randApi bot)
        (.bare k) = .bare k) := by
  have h1 := substituteVars_rend hkeys hvals hwf
  have hwf2 := wfSegs_substSegVars hvals hwf
  have h2 := substituteVars_rend hkeys hvals hwf2
  refine ⟨?_, h1, fun k h => ⟨substSegVars_brace.1 h, substSegVars_bare.1 h⟩⟩
  show substituteVars _ (substituteVars _ (rend segs)) = substituteVars _ (rend segs)
  rw [h1, h2, List.map_map]
  congr 1
  exact List.map_congr_left fun sg _ => substSegVars_idem _ sg

/-- C4 witness bot, environment and document segments. -/
def c4wBot : Bot :=
  { id := str "w1", name := str "w", sourceType := .git, url := none,
    branch := none, imageRef := none, status := .stopped, containerIds := [],
    updateToken := some (str "bbbb"), authHash := some (str "aaaa"),
    envVars := [(str "FOO", str "hello world")],
    hasBeenStarted := none, appName := none,
    createdAt := str "t0", updatedAt := str "t0" }

def c4wSegs : List Seg :=
  [ .lit (str "image: "), .brace (str "FOO"), .lit (str " port="),
    .bare (str "REF_PORT"), .lit (str " "), .bare (str "UNKNOWN"),
    .lit (str "!tail") ]

/-- Witness for C4 at a concrete well-formed document. -/
theorem claim4_substitution_idempotent_witness :
    (wfSegs c4wSegs = true ∧
     (∀ kv ∈ buildSubstitutionVariables c4Env (str "r0") (str "r1") c4wBot,
       keyOk kv.1 = true) ∧
     (∀ kv ∈ buildSubstitutionVariables c4Env (str "r0") (str "r1") c4wBot,
       noDollar kv.2 = true)) ∧
    (applyVariableSubstitution c4Env (str "r0") (str "r1")
        (applyVariableSubstitution c4Env (str "r0") (str "r1")
          (rend c4wSegs) c4wBot) c4wBot
      = applyVariableSubstitution c4Env (str "r0") (str "r1")
          (rend c4wSegs) c4wBot ∧
    applyVariableSubstitution c4Env (str "r0") (str "r1") (rend c4wSegs) c4wBot
      = rend (c4wSegs.map
          (substSegVars (buildSubstitutionVariables c4Env (str "r0") (str "r1") c4wBot))) ∧
    (∀ k, objGet (buildSubstitutionVariables c4Env (str "r0") (str "r1") c4wBot) k
        = none →
      substSegVars (buildSubstitutionVariables c4Env (str "r0") (str "r1") c4wBot)
        (.brace k) = .brace k ∧
      substSegVars (buildSubstitutionVariables c4Env (str "r0") (str "r1") c4wBot)
        (.bare k) = .bare k)) :=
  ⟨⟨by decide, by decide, by decide⟩,
   claim4_substitution_idempotent c4Env (str "r0") (str "r1") c4wBot c4wSegs
     (by decide) (by decide) (by decide)⟩

-- ─── Container-manager operations (containerManager.ts) ──────────────────
--
-- The build/start/stop/pull-and-rebuild operations are modelled over the
-- registry slice of the single target bot (the registry file round-trip of
-- `loadRegistry`/`saveRegistry`, shared between bots, is modelled for C8
-- below).  External interactions (docker, compose, fs, CasaOS API) are
-- recorded as `ExtCall`s, with their outcomes supplied by a `World`
-- oracle; per-bot `LogCollector` operations are recorded as `LogOp`s (the
-- collector is write-only in these operations, so its buffer after an
-- operation is `applyLogOps` of the recorded trace).  `M` is a
-- state-and-writer monad with a `Str` error channel for thrown
-- exceptions; `mtry` is `try/catch`.

/-- One operation performed on the target bot's `LogCollector`. -/
inductive LogOp where
  | clear
  | add (msg : Str) (sev : Severity)
deriving DecidableEq, Repr

/-- One external interaction performed by a container-manager operation. -/
inductive ExtCall where
  | getDeploymentMode
  | pullImage (ref : Str)
  | buildImage (image : Str)
  | detectBot
  | mkdirs
  | writeDockerfile
  | writeCompose
  | createVolumeDirs
  | execInstall (phase : Str)
  | saveMetadata (appName : Str)
  | deployApp (appName : Str)
  | sleep
  | fixOwnership (appName : Str)
  | readCompose
  | getContainerIds
  | createContainer (image : Str)
  | startContainer (cid : Str)
  | composeDown (appName : Str)
  | stopContainer (cid : Str)
  | removeContainer (cid : Str)
  | pullRepo
  | removeImage (image : Str)
deriving DecidableEq, Repr

/-- The effects recorded by an operation: collector ops and external calls. -/
structure Eff where
  logOps : List LogOp
  calls : List ExtCall
deriving DecidableEq, Repr

def Eff.empty : Eff := ⟨[], []⟩

def Eff.app (a b : Eff) : Eff := ⟨a.logOps ++ b.logOps, a.calls ++ b.calls⟩

/-- The registry slice carried through an operation: the target bot's
record and the current timestamp (`new Date().toISOString()`). -/
structure BotSt where
  bot : Bot
  now : Str
deriving DecidableEq, Repr

/-- State-and-writer monad with thrown `Str` exceptions: state survives a
throw (mutations made before the exception are kept, as in JS). -/
def M (α : Type) := BotSt → Except Str α × BotSt × Eff

def mret {α : Type} (a : α) : M α := fun s => (.ok a, s, Eff.empty)

def mbind {α β : Type} (x : M α) (f : α → M β) : M β := fun s =>
  let p := x s
  match p.1 with
  | .ok a =>
    let q := f a p.2.1
    (q.1, q.2.1, Eff.app p.2.2 q.2.2)
  | .error m => (.error m, p.2.1, p.2.2)

instance : Monad M where
  pure := mret
  bind := mbind

/-- `throw new Error(msg)` / a rejected awaited promise. -/
def mthrow {α : Type} (msg : Str) : M α := fun s => (.error msg, s, Eff.empty)

/-- `try x catch (e) h(e)`. -/
def mtry {α : Type} (x : M α) (h : Str → M α) : M α := fun s =>
  let p := x s
  match p.1 with
  | .ok a => (.ok a, p.2.1, p.2.2)
  | .error m =>
    let q := h m p.2.1
    (q.1, q.2.1, Eff.app p.2.2 q.2.2)

/-- `log.clear()`. -/
def logClear : M Unit := fun s => (.ok (), s, ⟨[LogOp.clear], []⟩)

/-- The operations' local `emit` helper: `log.addLog(msg, type)` (the
accompanying `console.log` is not a collector operation). -/
def emit (msg : Str) (sev : Severity) : M Unit := fun s =>
  (.ok (), s, ⟨[LogOp.add msg sev], []⟩)

/-- `getBot(botId)` on the modelled slice: the target bot's record. -/
def getBot : M Bot := fun s => (.ok s.bot, s, Eff.empty)

/-- An external call with an oracle-supplied outcome: records the call and
returns the outcome, throwing if the call rejects. -/
def extCall {α : Type} (c : ExtCall) (out : Except Str α) : M α := fun s =>
  (out, s, ⟨[], [c]⟩)

/-- An external call whose outcome is ignored by the caller (fire-and-log
or failure-swallowing call sites). -/
def extRecord (c : ExtCall) : M Unit := fun s => (.ok (), s, ⟨[], [c]⟩)

/-- `updateBotStatus(botId, status, containerIds?)`: sets `status`, marks
`hasBeenStarted` when entering `running`, overwrites `containerIds` when
the argument is given (`containerIds || []` — `null` becomes `[]`), and
stamps `updatedAt`. -/
def updateBotStatus (st : BotStatus) (cids : Option (Option (List Str))) : M Unit := fun s =>
  let b1 := { s.bot with status := st }
  let b2 := if st = BotStatus.running then { b1 with hasBeenStarted := some true } else b1
  let b3 := match cids with
    | none => b2
    | some c => { b2 with containerIds := c.getD [] }
  (.ok (), { s with bot := { b3 with updatedAt := s.now } }, Eff.empty)

/-- `updateBotAppName(botId, appName)`. -/
def updateBotAppName (appName : Str) : M Unit := fun s =>
  (.ok (), { s with bot := { s.bot with appName := some appName, updatedAt := s.now } }, Eff.empty)

/-- JS `error || 'unknown error'` on a string (empty strings are falsy). -/
def orUnknown (e : Str) : Str := if e = [] then str "unknown error" else e

/-- JS `result.error || 'unknown error'` on an optional error field. -/
def orUnknownOpt : Option Str → Str
  | none => str "unknown error"
  | some e => orUnknown e

/-- JS `v || d` on an optional string (absent and empty are falsy). -/
def orElseStr (v : Option Str) (d : Str) : Str :=
  match v with
  | some a => if a = [] then d else a
  | none => d

/-- JS `if (b) 'true' else 'false'` fragments in template literals. -/
def boolStr (b : Bool) : Str := if b then str "true" else str "false"

/-- The structured `{ success, error? }` result of every operation. -/
structure OpResult where
  success : Bool
  error : Option Str
deriving DecidableEq, Repr

/-- Oracle for the outcomes of external interactions and filesystem reads
during one operation. -/
structure World where
  /-- `getDeploymentMode()`: whether the mode is `'casaos'`; `.error` if it rejects. -/
  mode : Except Str Bool
  /-- `fs.existsSync(localComposePath)` for the bot's compose file. -/
  localComposeExists : Bool
  /-- `detectBotType(repoPath).type`. -/
  detType : Str
  /-- `detectBotType(repoPath).hasCompose`. -/
  detHasCompose : Bool
  /-- `detectBotType(repoPath).hasDatabase`. -/
  detHasDatabase : Bool
  /-- `detection.hasDockerfile`. -/
  detHasDockerfile : Bool
  /-- `hasExistingCompose(repoPath)`: the compose path when the repo ships one. -/
  existingCompose : Option Str
  /-- `getComposeBuildInfo(repoPath).buildTarget`. -/
  buildTargetInfo : Option Str
  /-- `processExistingCompose(...).appName`. -/
  procAppName : Str
  /-- `dockerClient.pullImage` outcome. -/
  pullImage : Except Str Unit
  /-- `createVolumeDirectories` outcome. -/
  createVolumeDirs : Except Str Unit
  /-- `executeInstallCommand('pre', ...)` outcome. -/
  execPreInstall : Except Str Unit
  /-- `saveToCasaOSMetadata` outcome. -/
  saveMetadata : Except Str Unit
  /-- `dockerClient.buildImage` outcome. -/
  buildImage : Except Str Unit
  /-- `casaosApi.deployApp` result: `none` on success, the `error` field on failure. -/
  deployApp : Option Str
  /-- `fixPostDeployOwnership` outcome. -/
  fixOwnership : Except Str Unit
  /-- `executeInstallCommand('post', ...)` outcome. -/
  execPostInstall : Except Str Unit
  /-- `getContainerIdsForBot` outcome. -/
  containerIds : Except Str (List Str)
  /-- `dockerClient.createBotContainer` outcome (the new container id). -/
  createContainer : Except Str Str
  /-- `dockerClient.startContainer` outcome. -/
  startContainer : Except Str Unit
  /-- `pullRepository` outcome. -/
  pullRepo : Except Str Unit
  /-- `dockerClient.imageExists(imageName)`. -/
  imageExists : Bool
deriving Repr

/-- The docker-image branch of `buildBot` (lines 799–830): `some r` is the
early `return r`, `none` falls through to the common tail. -/
def buildBotImagePhase (w : World) (bot : Bot) (isCasaOS : Bool) : M (Option OpResult) := do
  match bot.imageRef with
  | none =>
    emit (str "[Error] imageRef is required for docker-image source type") .severError
    updateBotStatus .stopped none
    pure (some (OpResult.mk false (some (str "imageRef is required for docker-image source type"))))
  | some ref =>
    emit (str "[Pull] Pulling image " ++ ref ++ str "...") .info
    extCall (.pullImage ref) w.pullImage
    emit (str "[Info] Generating compose file...") .info
    extRecord .mkdirs
    extRecord .writeCompose
    emit (str "[Done] Compose file written") .success
    if isCasaOS then do
      emit (str "[PCS] Saving CasaOS metadata...") .info
      extCall (.saveMetadata (str "bot-" ++ bot.id)) w.saveMetadata
    updateBotAppName (str "bot-" ++ bot.id)
    pure none

/-- The git branch of `buildBot` (lines 831–918). -/
def buildBotGitPhase (w : World) (bot : Bot) (isCasaOS : Bool) : M Unit := do
  extRecord .mkdirs
  emit (str "[Detect] Detecting bot type...") .info
  extRecord .detectBot
  emit (str "[Info] Detected: " ++ w.detType ++ str " bot (hasCompose: " ++
        boolStr w.detHasCompose ++ str ", hasDatabase: " ++ boolStr w.detHasDatabase ++ str ")") .info
  let pair ← (match w.existingCompose with
    | some composePath => do
      emit (str "[Info] Using existing compose file: " ++ composePath) .info
      (match w.buildTargetInfo with
       | some t => emit (str "[Config] Found build target: " ++ t) .info
       | none => pure ())
      emit (str "[Info] App name: " ++ w.procAppName) .info
      pure (w.procAppName, w.buildTargetInfo)
    | none => do
      emit (str "[Info] No compose file found, generating for " ++ w.detType ++ str " bot") .info
      if !w.detHasDockerfile && w.detType != str "compose" then do
        emit (str "[Config] Generating Dockerfile for " ++ w.detType ++ str " bot") .info
        extRecord .writeDockerfile
      pure (str "bot-" ++ bot.id, some (str "bot")))
  if isCasaOS then do
    emit (str "[PCS] Creating volume directories...") .info
    extCall .createVolumeDirs w.createVolumeDirs
  if isCasaOS then
    extCall (.execInstall (str "pre")) w.execPreInstall
  extRecord .writeCompose
  emit (str "[Done] Compose file written") .success
  if isCasaOS then do
    emit (str "[PCS] Saving CasaOS metadata...") .info
    extCall (.saveMetadata pair.1) w.saveMetadata
  (match pair.2 with
   | some _ => do
     emit (str "[Build] Building Docker image (bot-" ++ bot.id ++ str ":latest)...") .info
     extCall (.buildImage (str "bot-" ++ bot.id ++ str ":latest")) w.buildImage
     emit (str "[Done] Docker image build completed") .success
   | none =>
     emit (str "[Skip] No build target — docker compose will pull images at start") .info)
  updateBotAppName pair.1

/-- The `try` body of `buildBot` plus its `catch` handler (lines 792–930). -/
def buildBotBody (w : World) (bot : Bot) : M OpResult :=
  mtry (do
    emit (str "[Build] Build process started for " ++ bot.name) .system
    updateBotStatus .building none
    let isCasaOS ← extCall .getDeploymentMode w.mode
    let early ←
      if bot.sourceType = BotSourceType.dockerImage then
        buildBotImagePhase w bot isCasaOS
      else do
        buildBotGitPhase w bot isCasaOS
        pure none
    match early with
    | some r => pure r
    | none => do
      updateBotStatus .stopped none
      emit (str "[Success] Build completed successfully for " ++ bot.name) .success
      pure (OpResult.mk true none))
   (fun e => do
    emit (str "[Error] Build failed: " ++ e) .severError
    emit (str "[Fatal] Build process terminated with error") .severError
    updateBotStatus .statError none
    pure (OpResult.mk false (some e)))

/-- `buildBot(botId)` (lines 777–931): resolve the bot, clear its log
collector, then run the build under `try/catch`.  (The `'Bot not found'`
early return is outside this model: the state always carries the target
bot's registry record.) -/
def buildBot (w : World) : M OpResult := do
  let bot ← getBot
  logClear
  buildBotBody w bot

/-- `throw` on a failed `casaosApi.deployApp` result (`deployResult.success`
false throws `Failed to deploy via docker compose: ...`). -/
def throwIfDeployFailed (res : Option Str) : M Unit :=
  match res with
  | some e => mthrow (str "Failed to deploy via docker compose: " ++ orUnknown e)
  | none => mret ()

/-- `startGitBot(bot)` (lines 449–547). -/
def startGitBot (w : World) (bot0 : Bot) : M OpResult := do
  logClear
  mtry (do
    emit (str "[Start] Starting " ++ bot0.name ++ str "...") .system
    let latestBot ← getBot
    let appName := orElseStr latestBot.appName (str "bot-" ++ bot0.id)
    if !w.localComposeExists then do
      emit (str "[Build] No compose file found, running build first...") .info
      let buildResult ← buildBot w
      if !buildResult.success then
        mthrow (str "Build failed: " ++ orUnknownOpt buildResult.error)
      else pure ()
    let isCasaOS ← extCall .getDeploymentMode w.mode
    if isCasaOS then do
      emit (str "[Start] Starting containers (" ++ appName ++ str ")...") .info
      updateBotStatus .starting none
      extRecord (.deployApp appName)
      throwIfDeployFailed w.deployApp
      extRecord .sleep
      emit (str "[PCS] Fixing post-deploy ownership...") .info
      extCall (.fixOwnership appName) w.fixOwnership
      if latestBot.hasBeenStarted ≠ some true then do
        extRecord .readCompose
        extCall (.execInstall (str "post")) w.execPostInstall
      let containerIds ← extCall .getContainerIds w.containerIds
      updateBotStatus .running (some (some containerIds))
      emit (str "[Done] Bot deployed (" ++ Nat.toDigits 10 containerIds.length ++ str " containers)") .success
    else do
      emit (str "[Start] Creating container...") .info
      updateBotStatus .starting none
      let containerId ← extCall (.createContainer (str "bot-" ++ bot0.id ++ str ":latest")) w.createContainer
      emit (str "[Start] Starting container...") .info
      extCall (.startContainer containerId) w.startContainer
      updateBotStatus .running (some (some [containerId]))
      emit (str "[Done] Bot started successfully") .success
    emit (str "[Success] " ++ bot0.name ++ str " is now running!") .success
    pure (OpResult.mk true none))
   (fun e => do
    emit (str "[Error] Start failed: " ++ e) .severError
    emit (str "[Fatal] Start process terminated with error") .severError
    updateBotStatus .statError none
    pure (OpResult.mk false (some e)))

/-- `startDockerImageBot(bot)` (lines 553–630): note that it creates no
`emit` helper and performs no log-collector operation of its own — its
only collector activity is whatever a fallback `buildBot` run does. -/
def startDockerImageBot (w : World) (bot : Bot) : M OpResult := do
  match bot.imageRef with
  | none => pure (OpResult.mk false (some (str "imageRef is required for docker-image source type")))
  | some imageRef =>
    mtry (do
      let latestBot ← getBot
      let appName := orElseStr latestBot.appName (str "bot-" ++ bot.id)
      let early ←
        if !w.localComposeExists then do
          let buildResult ← buildBot w
          if !buildResult.success then
            pure (some (OpResult.mk false (some (str "Build failed: " ++ orUnknownOpt buildResult.error))))
          else pure none
        else pure none
      match early with
      | some r => pure r
      | none => do
        let isCasaOS ← extCall .getDeploymentMode w.mode
        if isCasaOS then do
          updateBotStatus .starting none
          extRecord (.deployApp appName)
          throwIfDeployFailed w.deployApp
          extRecord .sleep
          extCall (.fixOwnership appName) w.fixOwnership
          let containerIds ← extCall .getContainerIds w.containerIds
          updateBotStatus .running (some (some containerIds))
        else do
          updateBotStatus .starting none
          let containerId ← extCall (.createContainer imageRef) w.createContainer
          extCall (.startContainer containerId) w.startContainer
          updateBotStatus .running (some (some [containerId]))
        pure (OpResult.mk true none))
     (fun e => do
      updateBotStatus .statError none
      pure (OpResult.mk false (some e)))

/-- `startBot(botId)` (lines 423–440): precondition check then dispatch on
the source type. -/
def startBot (w : World) : M OpResult := do
  let bot ← getBot
  if bot.status = BotStatus.running then
    pure (OpResult.mk false (some (str "Bot is already running")))
  else
    if bot.sourceType = BotSourceType.dockerImage then
      startDockerImageBot w bot
    else
      startGitBot w bot

/-- The per-container stop/remove loop of `stopBot` (its inner `try/catch`
swallows per-container failures, so only the calls are observable). -/
def stopContainersLoop : List Str → M Unit
  | [] => pure ()
  | cid :: rest => do
    extRecord (.stopContainer cid)
    extRecord (.removeContainer cid)
    stopContainersLoop rest

/-- `stopBot(botId)` (lines 652–703).  A failed `composeDown` result is
only warned about, never thrown. -/
def stopBot (w : World) : M OpResult := do
  let bot ← getBot
  if bot.status ≠ BotStatus.running then
    pure (OpResult.mk false (some (str "Bot is not running")))
  else
    mtry (do
      updateBotStatus .stopping none
      let isCasaOS ← extCall .getDeploymentMode w.mode
      if isCasaOS then
        extRecord (.composeDown (orElseStr bot.appName (str "bot-" ++ bot.id)))
      else
        stopContainersLoop bot.containerIds
      updateBotStatus .stopped (some (some []))
      pure (OpResult.mk true none))
     (fun e => do
      updateBotStatus .statError none
      pure (OpResult.mk false (some e)))

/-- `pullAndRebuild(botId)` (lines 720–761): its `catch` neither updates
the bot's status nor touches the log collector. -/
def pullAndRebuild (w : World) : M OpResult := do
  let bot ← getBot
  mtry (do
    if bot.status = BotStatus.running then do
      let _ ← stopBot w
      pure ()
    else pure ()
    extCall .pullRepo w.pullRepo
    if w.imageExists then
      extRecord (.removeImage (str "bot-" ++ bot.id ++ str ":latest"))
    let buildResult ← buildBot w
    if !buildResult.success then
      pure (OpResult.mk false (some (str "Rebuild failed: " ++ orUnknownOpt buildResult.error)))
    else
      if bot.status = BotStatus.running then
        startBot w
      else
        pure (OpResult.mk true none))
   (fun e => pure (OpResult.mk false (some e)))

/-- A structured (non-thrown) operation outcome. -/
def isStructured {α : Type} : Except Str α → Bool
  | .ok _ => true
  | .error _ => false

/-- Replay of a recorded collector trace against a buffer (timestamps are
not tracked by the trace; entries are replayed at time 0). -/
def applyLogOps : List LogOp → List BuildLogEntry → List BuildLogEntry
  | [], buf => buf
  | LogOp.clear :: rest, buf => applyLogOps rest (clearLogs buf)
  | LogOp.add m sv :: rest, buf => applyLogOps rest (addLog buf ⟨m, sv, 0⟩)

-- ─── Monad computation lemmas ─────────────────────────────────────────────

theorem bindM_def {α β : Type} (x : M α) (f : α → M β) : x >>= f = mbind x f := rfl

theorem pureM_def {α : Type} (a : α) : (pure a : M α) = mret a := rfl

theorem getBot_bind {α : Type} (k : Bot → M α) (s : BotSt) :
    (mbind getBot k) s = k s.bot s := rfl

theorem clear_then {α : Type} (k : Unit → M α) (s : BotSt) :
    ∃ t, ((mbind logClear k) s).2.2.logOps = LogOp.clear :: t :=
  ⟨(k () s).2.2.logOps, rfl⟩

/-- `buildBot`'s first collector operation is the `clear`. -/
theorem buildBot_clear_first (w : World) (s : BotSt) :
    ∃ t, (buildBot w s).2.2.logOps = LogOp.clear :: t :=
  ⟨(buildBotBody w s.bot s).2.2.logOps, rfl⟩

/-- `startGitBot`'s first collector operation is the `clear`. -/
theorem startGitBot_clear_first (w : World) (b : Bot) (s : BotSt) :
    ∃ t, (startGitBot w b s).2.2.logOps = LogOp.clear :: t :=
  clear_then _ s

/-- With the compose file present, `startDockerImageBot` performs no
collector operation at all. -/
theorem sdib_no_logs (w : World) (b : Bot) (s : BotSt)
    (hc : w.localComposeExists = true) :
    (startDockerImageBot w b s).2.2.logOps = [] := by
  unfold startDockerImageBot
  cases hb : b.imageRef with
  | none => rfl
  | some ref =>
    simp only [bindM_def, pureM_def]
    repeat' (first
      | rfl
      | split
      | simp_all [mbind, mret, mtry, mthrow, getBot, extCall, extRecord, updateBotStatus,
          throwIfDeployFailed, orUnknown, hc, Eff.app, Eff.empty])

/-- `startBot` on a non-running git bot runs `startGitBot` on it. -/
theorem startBot_git_dispatch (w : World) (s : BotSt)
    (h1 : s.bot.status ≠ BotStatus.running)
    (h2 : s.bot.sourceType = BotSourceType.git) :
    startBot w s = startGitBot w s.bot s := by
  unfold startBot
  rw [bindM_def, getBot_bind, if_neg h1, h2]
  rfl

/-- `startBot` on a non-running docker-image bot runs `startDockerImageBot`. -/
theorem startBot_image_dispatch (w : World) (s : BotSt)
    (h1 : s.bot.status ≠ BotStatus.running)
    (h2 : s.bot.sourceType = BotSourceType.dockerImage) :
    startBot w s = startDockerImageBot w s.bot s := by
  unfold startBot
  rw [bindM_def, getBot_bind, if_neg h1, h2]
  rfl

-- ─── C6: concrete inputs, counterexample, claim, witness ──────────────────

/-- A world in which every external interaction succeeds, the deployment
mode is plain docker, and the bot's compose file already exists. -/
def c6World : World :=
  { mode := .ok false, localComposeExists := true, detType := str "nodejs",
    detHasCompose := false, detHasDatabase := false, detHasDockerfile := true,
    existingCompose := none, buildTargetInfo := none, procAppName := str "app",
    pullImage := .ok (), createVolumeDirs := .ok (), execPreInstall := .ok (),
    saveMetadata := .ok (), buildImage := .ok (), deployApp := none,
    fixOwnership := .ok (), execPostInstall := .ok (), containerIds := .ok [],
    createContainer := .ok (str "c1"), startContainer := .ok (),
    pullRepo := .ok (), imageExists := false }

/-- A stopped docker-image bot. -/
def c6Bot : Bot :=
  { id := str "b6", name := str "six", sourceType := .dockerImage, url := none,
    branch := none, imageRef := some (str "repo/img:tag"), status := .stopped,
    containerIds := [], updateToken := none, authHash := none, envVars := [],
    hasBeenStarted := none, appName := none, createdAt := str "t0", updatedAt := str "t0" }

def c6St : BotSt := ⟨c6Bot, str "t1"⟩

/-- A log entry left in the collector by a previous operation. -/
def c6Stale : BuildLogEntry := ⟨str "old build output", .info, 0⟩

/-- C6 counterexample: a successful `startBot` of a stopped docker-image
bot whose compose file exists performs no log-collector operation at all
— in particular no `clear` — so a stale entry from a previous operation
is still in the buffer when (and after) the start runs. -/
theorem claim6_counterexample :
    (startBot c6World c6St).1 = Except.ok (OpResult.mk true none) ∧
    (startBot c6World c6St).2.2.logOps = [] ∧
    applyLogOps (startBot c6World c6St).2.2.logOps [c6Stale] = [c6Stale] :=
  ⟨rfl, rfl, rfl⟩

/-- C6 (corrected): `buildBot` and `startGitBot` clear the bot's log
collector as their first collector operation (so a `startBot` of a
non-running git bot also begins with a clear), and replaying any trace
that begins with a clear is independent of the previous buffer contents.
`startDockerImageBot`, however, performs no collector operation of its
own: when the compose file already exists, starting a docker-image bot
records no clear and no append, so entries from a previous operation
survive in the buffer — the claim's coverage of docker-image starts is
wrong. -/
theorem claim6_log_clear_on_operations (w : World) (s : BotSt) (b : Bot) :
    (∃ t, (buildBot w s).2.2.logOps = LogOp.clear :: t) ∧
    (∃ t, (startGitBot w b s).2.2.logOps = LogOp.clear :: t) ∧
    (s.bot.status ≠ BotStatus.running → s.bot.sourceType = BotSourceType.git →
      ∃ t, (startBot w s).2.2.logOps = LogOp.clear :: t) ∧
    (w.localComposeExists = true →
      (startDockerImageBot w b s).2.2.logOps = []) ∧
    (s.bot.status ≠ BotStatus.running → s.bot.sourceType = BotSourceType.dockerImage →
      w.localComposeExists = true → (startBot w s).2.2.logOps = []) ∧
    (∀ ops b1 b2, applyLogOps (LogOp.clear :: ops) b1 = applyLogOps (LogOp.clear :: ops) b2) :=
  ⟨buildBot_clear_first w s,
   startGitBot_clear_first w b s,
   fun h1 h2 => by rw [startBot_git_dispatch w s h1 h2]; exact startGitBot_clear_first w s.bot s,
   fun hc => sdib_no_logs w b s hc,
   fun h1 h2 hc => by rw [startBot_image_dispatch w s h1 h2]; exact sdib_no_logs w s.bot s hc,
   fun _ _ _ => rfl⟩

/-- Witness for C6 at the concrete world and state. -/
theorem claim6_log_clear_on_operations_witness :
    (∃ t, (buildBot c6World c6St).2.2.logOps = LogOp.clear :: t) ∧
    (startDockerImageBot c6World c6Bot c6St).2.2.logOps = [] ∧
    (startBot c6World c6St).2.2.logOps = [] :=
  ⟨(claim6_log_clear_on_operations c6World c6St c6Bot).1,
   (claim6_log_clear_on_operations c6World c6St c6Bot).2.2.2.1 rfl,
   (claim6_log_clear_on_operations c6World c6St c6Bot).2.2.2.2.1 (by decide) rfl rfl⟩

-- ─── C7: structured failure results ───────────────────────────────────────

/-- A `try/catch` whose handler always produces a structured value never
lets an exception escape. -/
theorem isStructured_mtry {α : Type} (x : M α) (h : Str → M α) (s : BotSt)
    (hh : ∀ m s1, isStructured ((h m s1).1) = true) :
    isStructured (((mtry x h) s).1) = true := by
  unfold mtry
  rcases hx : x s with ⟨r, s1, e1⟩
  cases r with
  | ok a => rfl
  | error m => exact hh m s1

theorem buildBot_structured (w : World) (s : BotSt) :
    isStructured ((buildBot w s).1) = true :=
  isStructured_mtry _ _ s (fun _ _ => rfl)

theorem startGitBot_structured (w : World) (b : Bot) (s : BotSt) :
    isStructured ((startGitBot w b s).1) = true :=
  isStructured_mtry _ _ s (fun _ _ => rfl)

theorem sdib_structured (w : World) (b : Bot) (s : BotSt) :
    isStructured ((startDockerImageBot w b s).1) = true := by
  unfold startDockerImageBot
  cases b.imageRef with
  | none => rfl
  | some ref => exact isStructured_mtry _ _ s (fun _ _ => rfl)

theorem startBot_structured (w : World) (s : BotSt) :
    isStructured ((startBot w s).1) = true := by
  unfold startBot
  rw [bindM_def, getBot_bind]
  by_cases h1 : s.bot.status = BotStatus.running
  · rw [if_pos h1]; rfl
  · rw [if_neg h1]
    by_cases h2 : s.bot.sourceType = BotSourceType.dockerImage
    · rw [if_pos h2]; exact sdib_structured w s.bot s
    · rw [if_neg h2]; exact startGitBot_structured w s.bot s

theorem stopBot_structured (w : World) (s : BotSt) :
    isStructured ((stopBot w s).1) = true := by
  unfold stopBot
  rw [bindM_def, getBot_bind]
  by_cases h1 : s.bot.status ≠ BotStatus.running
  · rw [if_pos h1]; rfl
  · rw [if_neg h1]; exact isStructured_mtry _ _ s (fun _ _ => rfl)

theorem pullAndRebuild_structured (w : World) (s : BotSt) :
    isStructured ((pullAndRebuild w s).1) = true := by
  unfold pullAndRebuild
  rw [bindM_def, getBot_bind]
  exact isStructured_mtry _ _ s (fun _ _ => rfl)

-- ─── C7: failure-path behavior, per operation ─────────────────────────────

/-- `buildBot` with a failing image pull: the catch runs — status `error`,
`[Error]` + `[Fatal]` entries, structured failure. -/
theorem buildBot_pull_failure (w : World) (s : BotSt) (ref m : Str) (cas : Bool)
    (h1 : s.bot.sourceType = BotSourceType.dockerImage)
    (h2 : s.bot.imageRef = some ref)
    (h3 : w.mode = .ok cas)
    (h4 : w.pullImage = .error m) :
    (buildBot w s).1 = Except.ok (OpResult.mk false (some m)) ∧
    (buildBot w s).2.1.bot.status = BotStatus.statError ∧
    (buildBot w s).2.2.logOps =
      [LogOp.clear,
       LogOp.add (str "[Build] Build process started for " ++ s.bot.name) .system,
       LogOp.add (str "[Pull] Pulling image " ++ ref ++ str "...") .info,
       LogOp.add (str "[Error] Build failed: " ++ m) .severError,
       LogOp.add (str "[Fatal] Build process terminated with error") .severError] := by
  refine ⟨?_, ?_, ?_⟩ <;>
    simp [buildBot, buildBotBody, buildBotImagePhase, bindM_def, pureM_def, mbind, mret,
      mtry, mthrow, getBot, logClear, emit, extCall, extRecord, updateBotStatus,
      updateBotAppName, Eff.app, Eff.empty, h1, h2, h3, h4]

/-- `buildBot` of a docker-image bot with no `imageRef`: a structured
failure that leaves status `'stopped'` (not `'error'`) and appends no
`[Fatal]` entry. -/
theorem buildBot_missing_imageRef (w : World) (s : BotSt) (cas : Bool)
    (h1 : s.bot.sourceType = BotSourceType.dockerImage)
    (h2 : s.bot.imageRef = none)
    (h3 : w.mode = .ok cas) :
    (buildBot w s).1 =
      Except.ok (OpResult.mk false (some (str "imageRef is required for docker-image source type"))) ∧
    (buildBot w s).2.1.bot.status = BotStatus.stopped ∧
    (buildBot w s).2.2.logOps =
      [LogOp.clear,
       LogOp.add (str "[Build] Build process started for " ++ s.bot.name) .system,
       LogOp.add (str "[Error] imageRef is required for docker-image source type") .severError] := by
  refine ⟨?_, ?_, ?_⟩ <;>
    simp [buildBot, buildBotBody, buildBotImagePhase, bindM_def, pureM_def, mbind, mret,
      mtry, mthrow, getBot, logClear, emit, extCall, extRecord, updateBotStatus,
      updateBotAppName, Eff.app, Eff.empty, h1, h2, h3]

/-- `startGitBot` with a failing container creation: status `error`,
`[Error]` + `[Fatal]` entries, structured failure. -/
theorem startGitBot_create_failure (w : World) (b : Bot) (s : BotSt) (m : Str)
    (h1 : w.localComposeExists = true)
    (h2 : w.mode = .ok false)
    (h3 : w.createContainer = .error m) :
    (startGitBot w b s).1 = Except.ok (OpResult.mk false (some m)) ∧
    (startGitBot w b s).2.1.bot.status = BotStatus.statError ∧
    (startGitBot w b s).2.2.logOps =
      [LogOp.clear,
       LogOp.add (str "[Start] Starting " ++ b.name ++ str "...") .system,
       LogOp.add (str "[Start] Creating container...") .info,
       LogOp.add (str "[Error] Start failed: " ++ m) .severError,
       LogOp.add (str "[Fatal] Start process terminated with error") .severError] := by
  refine ⟨?_, ?_, ?_⟩ <;>
    simp [startGitBot, bindM_def, pureM_def, mbind, mret, mtry, mthrow, getBot, logClear,
      emit, extCall, extRecord, updateBotStatus, throwIfDeployFailed, Eff.app, Eff.empty,
      h1, h2, h3]

/-- `startDockerImageBot` with a failing deploy: a structured failure that
sets status `error` but appends no log entry whatsoever (no `[Fatal]`). -/
theorem sdib_deploy_failure (w : World) (b : Bot) (s : BotSt) (ref em : Str)
    (h0 : b.imageRef = some ref)
    (h1 : w.localComposeExists = true)
    (h2 : w.mode = .ok true)
    (h3 : w.deployApp = some em) :
    (startDockerImageBot w b s).1 =
      Except.ok (OpResult.mk false (some (str "Failed to deploy via docker compose: " ++ orUnknown em))) ∧
    (startDockerImageBot w b s).2.1.bot.status = BotStatus.statError ∧
    (startDockerImageBot w b s).2.2.logOps = [] := by
  refine ⟨?_, ?_, ?_⟩ <;>
    simp [startDockerImageBot, bindM_def, pureM_def, mbind, mret, mtry, mthrow, getBot,
      logClear, emit, extCall, extRecord, updateBotStatus, throwIfDeployFailed, Eff.app,
      Eff.empty, h0, h1, h2, h3]

/-- `stopBot` whose deployment-mode lookup rejects: a structured failure
that sets status `error` but appends no log entry (no `[Fatal]`). -/
theorem stopBot_mode_failure (w : World) (s : BotSt) (m : Str)
    (h1 : s.bot.status = BotStatus.running)
    (h2 : w.mode = .error m) :
    (stopBot w s).1 = Except.ok (OpResult.mk false (some m)) ∧
    (stopBot w s).2.1.bot.status = BotStatus.statError ∧
    (stopBot w s).2.2.logOps = [] := by
  refine ⟨?_, ?_, ?_⟩ <;>
    simp [stopBot, bindM_def, pureM_def, mbind, mret, mtry, mthrow, getBot, logClear,
      emit, extCall, extRecord, updateBotStatus, Eff.app, Eff.empty, h1, h2]

/-- `pullAndRebuild` of a non-running bot whose `git pull` rejects: a
structured failure with the bot's registry record completely untouched
(status in particular is not set to `error`), no log-collector activity,
and no external call beyond the pull itself. -/
theorem pullAndRebuild_pull_failure (w : World) (s : BotSt) (m : Str)
    (h1 : s.bot.status ≠ BotStatus.running)
    (h2 : w.pullRepo = .error m) :
    (pullAndRebuild w s).1 = Except.ok (OpResult.mk false (some m)) ∧
    (pullAndRebuild w s).2.1 = s ∧
    (pullAndRebuild w s).2.2.logOps = [] ∧
    (pullAndRebuild w s).2.2.calls = [ExtCall.pullRepo] := by
  refine ⟨?_, ?_, ?_, ?_⟩ <;>
    simp [pullAndRebuild, bindM_def, pureM_def, mbind, mret, mtry, mthrow, getBot,
      extCall, extRecord, Eff.app, Eff.empty, h1, h2]

-- ─── C7: concrete inputs, counterexample, claim, witness ──────────────────

/-- A world in which the `git pull` of `pullAndRebuild` rejects and
everything else succeeds. -/
def c7World : World :=
  { mode := .ok false, localComposeExists := true, detType := str "nodejs",
    detHasCompose := false, detHasDatabase := false, detHasDockerfile := true,
    existingCompose := none, buildTargetInfo := none, procAppName := str "app",
    pullImage := .ok (), createVolumeDirs := .ok (), execPreInstall := .ok (),
    saveMetadata := .ok (), buildImage := .ok (), deployApp := none,
    fixOwnership := .ok (), execPostInstall := .ok (), containerIds := .ok [],
    createContainer := .ok (str "c1"), startContainer := .ok (),
    pullRepo := .error (str "network down"), imageExists := false }

/-- A stopped git bot. -/
def c7Bot : Bot :=
  { id := str "b7", name := str "seven", sourceType := .git,
    url := some (str "https://example.test/r.git"), branch := some (str "main"),
    imageRef := none, status := .stopped, containerIds := [], updateToken := none,
    authHash := none, envVars := [], hasBeenStarted := none, appName := none,
    createdAt := str "t0", updatedAt := str "t0" }

def c7St : BotSt := ⟨c7Bot, str "t7"⟩

/-- A world in which the image pull of a docker-image `buildBot` rejects. -/
def c7bWorld : World :=
  { mode := .ok false, localComposeExists := true, detType := str "nodejs",
    detHasCompose := false, detHasDatabase := false, detHasDockerfile := true,
    existingCompose := none, buildTargetInfo := none, procAppName := str "app",
    pullImage := .error (str "manifest unknown"), createVolumeDirs := .ok (),
    execPreInstall := .ok (), saveMetadata := .ok (), buildImage := .ok (),
    deployApp := none, fixOwnership := .ok (), execPostInstall := .ok (),
    containerIds := .ok [], createContainer := .ok (str "c1"),
    startContainer := .ok (), pullRepo := .ok (), imageExists := false }

/-- A stopped docker-image bot for the C7 witness. -/
def c7bBot : Bot :=
  { id := str "b7b", name := str "sevenb", sourceType := .dockerImage, url := none,
    branch := none, imageRef := some (str "repo/img:1"), status := .stopped,
    containerIds := [], updateToken := none, authHash := none, envVars := [],
    hasBeenStarted := none, appName := none, createdAt := str "t0", updatedAt := str "t0" }

def c7bSt : BotSt := ⟨c7bBot, str "t7"⟩

/-- C7 counterexample: `pullAndRebuild` whose `git pull` rejects returns a
structured failure, yet the bot's status is not set to `'error'` (the
registry record is untouched) and no terminal fatal entry — no log entry
at all — is appended. -/
theorem claim7_counterexample :
    (pullAndRebuild c7World c7St).1 =
      Except.ok (OpResult.mk false (some (str "network down"))) ∧
    (pullAndRebuild c7World c7St).2.1 = c7St ∧
    (pullAndRebuild c7World c7St).2.1.bot.status ≠ BotStatus.statError ∧
    (pullAndRebuild c7World c7St).2.2.logOps = [] :=
  ⟨rfl, rfl, by decide, rfl⟩

/-- C7 (corrected): every operation returns a structured result — no
exception escapes build, start (either source type), stop or
pull-and-rebuild.  But the claimed failure protocol (status `'error'`
plus a terminal fatal log entry) holds only for `buildBot`'s catch and
`startGitBot`'s catch.  `buildBot`'s missing-`imageRef` failure leaves
status `'stopped'` with no fatal entry; `startDockerImageBot` and
`stopBot` set status `'error'` on failure but append no log entry at
all; and `pullAndRebuild`'s catch neither sets any status nor appends
any entry — the failed bot keeps its previous registry record. -/
theorem claim7_failure_behavior :
    (∀ w s, isStructured ((buildBot w s).1) = true) ∧
    (∀ w b s, isStructured ((startGitBot w b s).1) = true) ∧
    (∀ w b s, isStructured ((startDockerImageBot w b s).1) = true) ∧
    (∀ w s, isStructured ((startBot w s).1) = true) ∧
    (∀ w s, isStructured ((stopBot w s).1) = true) ∧
    (∀ w s, isStructured ((pullAndRebuild w s).1) = true) ∧
    (∀ w s ref m cas, s.bot.sourceType = BotSourceType.dockerImage →
      s.bot.imageRef = some ref → w.mode = .ok cas → w.pullImage = .error m →
      (buildBot w s).1 = Except.ok (OpResult.mk false (some m)) ∧
      (buildBot w s).2.1.bot.status = BotStatus.statError ∧
      (buildBot w s).2.2.logOps =
        [LogOp.clear,
         LogOp.add (str "[Build] Build process started for " ++ s.bot.name) .system,
         LogOp.add (str "[Pull] Pulling image " ++ ref ++ str "...") .info,
         LogOp.add (str "[Error] Build failed: " ++ m) .severError,
         LogOp.add (str "[Fatal] Build process terminated with error") .severError]) ∧
    (∀ w s cas, s.bot.sourceType = BotSourceType.dockerImage →
      s.bot.imageRef = none → w.mode = .ok cas →
      (buildBot w s).1 =
        Except.ok (OpResult.mk false (some (str "imageRef is required for docker-image source type"))) ∧
      (buildBot w s).2.1.bot.status = BotStatus.stopped ∧
      (buildBot w s).2.2.logOps =
        [LogOp.clear,
         LogOp.add (str "[Build] Build process started for " ++ s.bot.name) .system,
         LogOp.add (str "[Error] imageRef is required for docker-image source type") .severError]) ∧
    (∀ w b s m, w.localComposeExists = true → w.mode = .ok false →
      w.createContainer = .error m →
      (startGitBot w b s).1 = Except.ok (OpResult.mk false (some m)) ∧
      (startGitBot w b s).2.1.bot.status = BotStatus.statError ∧
      (startGitBot w b s).2.2.logOps =
        [LogOp.clear,
         LogOp.add (str "[Start] Starting " ++ b.name ++ str "...") .system,
         LogOp.add (str "[Start] Creating container...") .info,
         LogOp.add (str "[Error] Start failed: " ++ m) .severError,
         LogOp.add (str "[Fatal] Start process terminated with error") .severError]) ∧
    (∀ w b s ref em, b.imageRef = some ref → w.localComposeExists = true →
      w.mode = .ok true → w.deployApp = some em →
      (startDockerImageBot w b s).1 =
        Except.ok (OpResult.mk false
          (some (str "Failed to deploy via docker compose: " ++ orUnknown em))) ∧
      (startDockerImageBot w b s).2.1.bot.status = BotStatus.statError ∧
      (startDockerImageBot w b s).2.2.logOps = []) ∧
    (∀ w s m, s.bot.status = BotStatus.running → w.mode = .error m →
      (stopBot w s).1 = Except.ok (OpResult.mk false (some m)) ∧
      (stopBot w s).2.1.bot.status = BotStatus.statError ∧
      (stopBot w s).2.2.logOps = []) ∧
    (∀ w s m, s.bot.status ≠ BotStatus.running → w.pullRepo = .error m →
      (pullAndRebuild w s).1 = Except.ok (OpResult.mk false (some m)) ∧
      (pullAndRebuild w s).2.1 = s ∧
      (pullAndRebuild w s).2.2.logOps = [] ∧
      (pullAndRebuild w s).2.2.calls = [ExtCall.pullRepo]) :=
  ⟨fun w s => buildBot_structured w s,
   fun w b s => startGitBot_structured w b s,
   fun w b s => sdib_structured w b s,
   fun w s => startBot_structured w s,
   fun w s => stopBot_structured w s,
   fun w s => pullAndRebuild_structured w s,
   fun w s ref m cas h1 h2 h3 h4 => buildBot_pull_failure w s ref m cas h1 h2 h3 h4,
   fun w s cas h1 h2 h3 => buildBot_missing_imageRef w s cas h1 h2 h3,
   fun w b s m h1 h2 h3 => startGitBot_create_failure w b s m h1 h2 h3,
   fun w b s ref em h0 h1 h2 h3 => sdib_deploy_failure w b s ref em h0 h1 h2 h3,
   fun w s m h1 h2 => stopBot_mode_failure w s m h1 h2,
   fun w s m h1 h2 => pullAndRebuild_pull_failure w s m h1 h2⟩

/-- Witness for C7 at concrete worlds: a failing `pullAndRebuild` and a
failing docker-image `buildBot`. -/
theorem claim7_failure_behavior_witness :
    (isStructured ((pullAndRebuild c7World c7St).1) = true) ∧
    ((pullAndRebuild c7World c7St).1 =
        Except.ok (OpResult.mk false (some (str "network down"))) ∧
      (pullAndRebuild c7World c7St).2.1 = c7St ∧
      (pullAndRebuild c7World c7St).2.2.logOps = [] ∧
      (pullAndRebuild c7World c7St).2.2.calls = [ExtCall.pullRepo]) ∧
    ((buildBot c7bWorld c7bSt).1 =
        Except.ok (OpResult.mk false (some (str "manifest unknown"))) ∧
      (buildBot c7bWorld c7bSt).2.1.bot.status = BotStatus.statError ∧
      (buildBot c7bWorld c7bSt).2.2.logOps =
        [LogOp.clear,
         LogOp.add (str "[Build] Build process started for " ++ c7bSt.bot.name) .system,
         LogOp.add (str "[Pull] Pulling image " ++ str "repo/img:1" ++ str "...") .info,
         LogOp.add (str "[Error] Build failed: " ++ str "manifest unknown") .severError,
         LogOp.add (str "[Fatal] Build process terminated with error") .severError]) :=
  ⟨claim7_failure_behavior.2.2.2.2.2.1 c7World c7St,
   claim7_failure_behavior.2.2.2.2.2.2.2.2.2.2.2 c7World c7St (str "network down")
     (by decide) rfl,
   claim7_failure_behavior.2.2.2.2.2.2.1 c7bWorld c7bSt (str "repo/img:1")
     (str "manifest unknown") false rfl rfl rfl rfl⟩

-- ─── C9: precondition rejections are side-effect-free ─────────────────────

/-- A world in which every external interaction succeeds (its outcomes are
irrelevant to C9: the rejected operations make no external call). -/
def c9World : World :=
  { mode := .ok true, localComposeExists := true, detType := str "nodejs",
    detHasCompose := false, detHasDatabase := false, detHasDockerfile := true,
    existingCompose := none, buildTargetInfo := none, procAppName := str "app",
    pullImage := .ok (), createVolumeDirs := .ok (), execPreInstall := .ok (),
    saveMetadata := .ok (), buildImage := .ok (), deployApp := none,
    fixOwnership := .ok (), execPostInstall := .ok (), containerIds := .ok [],
    createContainer := .ok (str "c1"), startContainer := .ok (),
    pullRepo := .ok (), imageExists := true }

/-- A running git bot with containers. -/
def c9RunBot : Bot :=
  { id := str "b9", name := str "nine", sourceType := .git,
    url := some (str "https://example.test/r.git"), branch := some (str "main"),
    imageRef := none, status := .running, containerIds := [str "c91", str "c92"],
    updateToken := none, authHash := none, envVars := [],
    hasBeenStarted := some true, appName := some (str "bot-b9"),
    createdAt := str "t0", updatedAt := str "t4" }

def c9RunSt : BotSt := ⟨c9RunBot, str "t9"⟩

/-- A stopped git bot. -/
def c9StopBot : Bot :=
  { id := str "b9s", name := str "nine-s", sourceType := .git,
    url := some (str "https://example.test/r.git"), branch := some (str "main"),
    imageRef := none, status := .stopped, containerIds := [], updateToken := none,
    authHash := none, envVars := [], hasBeenStarted := none, appName := none,
    createdAt := str "t0", updatedAt := str "t4" }

def c9StopSt : BotSt := ⟨c9StopBot, str "t9"⟩

/-- C9: an operation rejected on its status precondition is side-effect
free.  `startBot` of a running bot returns exactly
`{success: false, error: 'Bot is already running'}`, `stopBot` of a
non-running bot returns exactly `{success: false, error: 'Bot is not
running'}`, and in both cases the registry slice (status, containerIds,
updatedAt — the whole record) is returned unchanged, no log-collector
operation is recorded, and no external (container/compose) call is made. -/
theorem claim9_precondition_rejections (w : World) (s : BotSt) :
    (s.bot.status = BotStatus.running →
      startBot w s =
        (Except.ok (OpResult.mk false (some (str "Bot is already running"))), s, Eff.empty)) ∧
    (s.bot.status ≠ BotStatus.running →
      stopBot w s =
        (Except.ok (OpResult.mk false (some (str "Bot is not running"))), s, Eff.empty)) := by
  constructor
  · intro h
    unfold startBot
    rw [bindM_def, getBot_bind, if_pos h]
    rfl
  · intro h
    unfold stopBot
    rw [bindM_def, getBot_bind, if_pos h]
    rfl

/-- Witness for C9: a concrete running bot rejected by `startBot` and a
concrete stopped bot rejected by `stopBot`. -/
theorem claim9_precondition_rejections_witness :
    startBot c9World c9RunSt =
      (Except.ok (OpResult.mk false (some (str "Bot is already running"))), c9RunSt, Eff.empty) ∧
    stopBot c9World c9StopSt =
      (Except.ok (OpResult.mk false (some (str "Bot is not running"))), c9StopSt, Eff.empty) :=
  ⟨(claim9_precondition_rejections c9World c9RunSt).1 rfl,
   (claim9_precondition_rejections c9World c9StopSt).2 (by decide)⟩

-- ─── C8: registry file and the serialized write queue ─────────────────────

/-- `registry.bots[botId]` read on parsed file contents. -/
def regGet : List (Str × Bot) → Str → Option Bot
  | [], _ => none
  | (k, b) :: rest, id => if k = id then some b else regGet rest id

/-- `registry.bots[botId] = bot`: replace in place or append. -/
def regSet : List (Str × Bot) → Str → Bot → List (Str × Bot)
  | [], id, b => [(id, b)]
  | (k, b') :: rest, id, b =>
    if k = id then (k, b) :: rest else (k, b') :: regSet rest id b

/-- The on-disk registry file (`bots.json`) together with the in-process
write chain `writeQueue`: each queued operation is a pending
`saveRegistrySync` of a whole-registry snapshot. -/
structure RegSys where
  file : List (Str × Bot)
  queue : List (List (Str × Bot))
deriving DecidableEq, Repr

/-- `loadRegistry()` reads the file from disk: queued writes that have not
yet run are invisible to it. -/
def loadRegistry (sys : RegSys) : List (Str × Bot) := sys.file

/-- `saveRegistry(registry)` = `queueRegistryWrite(() => saveRegistrySync(registry))`:
appends the snapshot to the write chain without touching the file (the
write is not awaited). -/
def saveRegistry (sys : RegSys) (reg : List (Str × Bot)) : RegSys :=
  { sys with queue := sys.queue ++ [reg] }

/-- Running the write chain to completion: each queued operation in order
overwrites the whole file with its snapshot. -/
def flushQueue (sys : RegSys) : RegSys :=
  { file := sys.queue.foldl (fun _ snap => snap) sys.file, queue := [] }

/-- The record update performed by `updateBotStatus`. -/
def updStatusRecord (bot : Bot) (st : BotStatus) (cids : Option (Option (List Str)))
    (now : Str) : Bot :=
  let b1 := { bot with status := st }
  let b2 := if st = BotStatus.running then { b1 with hasBeenStarted := some true } else b1
  let b3 := match cids with
    | none => b2
    | some c => { b2 with containerIds := c.getD [] }
  { b3 with updatedAt := now }

/-- `updateBotStatus(botId, status, containerIds?)` over the file-backed
registry: load from disk, update the bot's record, queue the save.  A
missing bot id is a no-op. -/
def updateBotStatusFile (sys : RegSys) (botId : Str) (st : BotStatus)
    (cids : Option (Option (List Str))) (now : Str) : RegSys :=
  match regGet (loadRegistry sys) botId with
  | none => sys
  | some bot =>
    saveRegistry sys (regSet (loadRegistry sys) botId (updStatusRecord bot st cids now))

theorem regGet_regSet_self (l : List (Str × Bot)) (k : Str) (b : Bot) :
    regGet (regSet l k b) k = some b := by
  induction l with
  | nil => simp [regGet, regSet]
  | cons p rest ih =>
    obtain ⟨k', v'⟩ := p
    by_cases h : k' = k
    · simp [regSet, regGet, h]
    · simp [regSet, regGet, h, ih]

theorem regGet_regSet_ne (l : List (Str × Bot)) (k k' : Str) (b : Bot) (h : k ≠ k') :
    regGet (regSet l k b) k' = regGet l k' := by
  induction l with
  | nil => simp [regGet, regSet, h]
  | cons p rest ih =>
    obtain ⟨k0, v0⟩ := p
    by_cases h0 : k0 = k
    · subst h0
      simp [regSet, regGet, h]
    · simp [regSet, regGet, h0, ih]

theorem foldl_overwrite (init : List (Str × Bot)) (q : List (List (Str × Bot)))
    (snap : List (Str × Bot)) :
    (q ++ [snap]).foldl (fun _ s => s) init = snap := by
  rw [List.foldl_append]
  rfl

theorem updStatusRecord_status (bot : Bot) (st : BotStatus)
    (cids : Option (Option (List Str))) (now : Str) :
    (updStatusRecord bot st cids now).status = st := by
  rcases cids with _ | c <;> by_cases h : st = BotStatus.running <;>
    simp [updStatusRecord, h]

/-- Two stopped bots registered in the file, with an empty write chain. -/
def c8BotA : Bot :=
  { id := str "a", name := str "alpha", sourceType := .git,
    url := some (str "https://example.test/a.git"), branch := some (str "main"),
    imageRef := none, status := .stopped, containerIds := [], updateToken := none,
    authHash := none, envVars := [], hasBeenStarted := none, appName := none,
    createdAt := str "t0", updatedAt := str "t0" }

def c8BotB : Bot :=
  { id := str "b", name := str "beta", sourceType := .git,
    url := some (str "https://example.test/b.git"), branch := some (str "main"),
    imageRef := none, status := .stopped, containerIds := [], updateToken := none,
    authHash := none, envVars := [], hasBeenStarted := none, appName := none,
    createdAt := str "t0", updatedAt := str "t0" }

def c8Sys : RegSys := ⟨[(str "a", c8BotA), (str "b", c8BotB)], []⟩

/-- C8 counterexample: two `updateBotStatus` calls for different bots both
issued through the write queue before the first queued write has run (the
concurrent, same-tick schedule).  After the chain drains, bot `b` is
`running` but bot `a`'s record is byte-identical to its original — the
first update is lost, though both writes went through the serialized
queue. -/
theorem claim8_counterexample :
    (regGet (flushQueue (updateBotStatusFile
        (updateBotStatusFile c8Sys (str "a") BotStatus.running none (str "t1"))
        (str "b") BotStatus.running none (str "t2"))).file (str "b")).map Bot.status =
      some BotStatus.running ∧
    regGet (flushQueue (updateBotStatusFile
        (updateBotStatusFile c8Sys (str "a") BotStatus.running none (str "t1"))
        (str "b") BotStatus.running none (str "t2"))).file (str "a") = some c8BotA ∧
    c8BotA.status = BotStatus.stopped :=
  ⟨rfl, rfl, rfl⟩

/-- Projection of the `updateBotStatus` record update: `hasBeenStarted`
is marked when entering `running` and otherwise kept. -/
theorem updStatusRecord_hasBeenStarted (bot : Bot) (st : BotStatus)
    (cids : Option (Option (List Str))) (now : Str) :
    (updStatusRecord bot st cids now).hasBeenStarted =
      if st = BotStatus.running then some true else bot.hasBeenStarted := by
  rcases cids with _ | c <;> by_cases h : st = BotStatus.running <;>
    simp [updStatusRecord, h]

/-- C8 (corrected): the write queue serializes the file writes — after
the chain drains the file is exactly the last queued snapshot — but it
does not make `loadRegistry`/`saveRegistry` read-modify-write cycles
atomic.  When each update's queued write completes before the next
update reads the registry (sequential issuance), both updates persist:
for different bots each keeps its new status, and for the same bot the
second update is applied on top of the first's record.  When the second
update reads the file before the first's queued write has run (the
concurrent schedule the claim is about), the drained file is the second
update's snapshot computed from the original file, so the first update
is lost: a different bot keeps its original record verbatim, and for
the same bot the final record derives from the original one — e.g. a
first `running` update's `hasBeenStarted` mark survives the sequential
schedule but not the concurrent one. -/
theorem claim8_registry_write_queue (sys : RegSys) (id1 id2 now1 now2 : Str)
    (st1 st2 : BotStatus) (b1 b2 : Bot)
    (h1 : regGet sys.file id1 = some b1)
    (h2 : regGet sys.file id2 = some b2) :
    (id1 ≠ id2 →
      (regGet (flushQueue (updateBotStatusFile
          (flushQueue (updateBotStatusFile sys id1 st1 none now1))
          id2 st2 none now2)).file id1).map Bot.status = some st1 ∧
      (regGet (flushQueue (updateBotStatusFile
          (flushQueue (updateBotStatusFile sys id1 st1 none now1))
          id2 st2 none now2)).file id2).map Bot.status = some st2) ∧
    (id1 ≠ id2 →
      (regGet (flushQueue (updateBotStatusFile
          (updateBotStatusFile sys id1 st1 none now1)
          id2 st2 none now2)).file id2).map Bot.status = some st2 ∧
      regGet (flushQueue (updateBotStatusFile
          (updateBotStatusFile sys id1 st1 none now1)
          id2 st2 none now2)).file id1 = some b1) ∧
    regGet (flushQueue (updateBotStatusFile
        (flushQueue (updateBotStatusFile sys id1 st1 none now1))
        id1 st2 none now2)).file id1
      = some (updStatusRecord (updStatusRecord b1 st1 none now1) st2 none now2) ∧
    regGet (flushQueue (updateBotStatusFile
        (updateBotStatusFile sys id1 st1 none now1)
        id1 st2 none now2)).file id1
      = some (updStatusRecord b1 st2 none now2) ∧
    (st1 = BotStatus.running → st2 ≠ BotStatus.running →
      (updStatusRecord (updStatusRecord b1 st1 none now1) st2 none now2).hasBeenStarted
        = some true ∧
      (updStatusRecord b1 st2 none now2).hasBeenStarted = b1.hasBeenStarted) := by
  have e1 : updateBotStatusFile sys id1 st1 none now1 =
      RegSys.mk sys.file
        (sys.queue ++ [regSet sys.file id1 (updStatusRecord b1 st1 none now1)]) := by
    unfold updateBotStatusFile loadRegistry
    rw [h1]
    rfl
  have ef1 : flushQueue (updateBotStatusFile sys id1 st1 none now1) =
      RegSys.mk (regSet sys.file id1 (updStatusRecord b1 st1 none now1)) [] := by
    rw [e1]
    unfold flushQueue
    rw [foldl_overwrite]
  have e2s : updateBotStatusFile
      (RegSys.mk (regSet sys.file id1 (updStatusRecord b1 st1 none now1)) [])
      id1 st2 none now2 =
      RegSys.mk (regSet sys.file id1 (updStatusRecord b1 st1 none now1))
        [regSet (regSet sys.file id1 (updStatusRecord b1 st1 none now1)) id1
          (updStatusRecord (updStatusRecord b1 st1 none now1) st2 none now2)] := by
    unfold updateBotStatusFile loadRegistry
    rw [regGet_regSet_self]
    rfl
  have e3s : updateBotStatusFile
      (RegSys.mk sys.file
        (sys.queue ++ [regSet sys.file id1 (updStatusRecord b1 st1 none now1)]))
      id1 st2 none now2 =
      RegSys.mk sys.file
        ((sys.queue ++ [regSet sys.file id1 (updStatusRecord b1 st1 none now1)]) ++
         [regSet sys.file id1 (updStatusRecord b1 st2 none now2)]) := by
    unfold updateBotStatusFile loadRegistry
    rw [h1]
    rfl
  refine ⟨?_, ?_, ?_, ?_, ?_⟩
  · intro hne
    have e2 : updateBotStatusFile
        (RegSys.mk (regSet sys.file id1 (updStatusRecord b1 st1 none now1)) [])
        id2 st2 none now2 =
        RegSys.mk (regSet sys.file id1 (updStatusRecord b1 st1 none now1))
          [regSet (regSet sys.file id1 (updStatusRecord b1 st1 none now1)) id2
            (updStatusRecord b2 st2 none now2)] := by
      unfold updateBotStatusFile loadRegistry
      rw [regGet_regSet_ne sys.file id1 id2 _ hne, h2]
      rfl
    constructor
    · rw [ef1, e2]
      unfold flushQueue
      rw [show ([regSet (regSet sys.file id1 (updStatusRecord b1 st1 none now1)) id2
          (updStatusRecord b2 st2 none now2)] : List (List (Str × Bot))) =
          [] ++ [regSet (regSet sys.file id1 (updStatusRecord b1 st1 none now1)) id2
          (updStatusRecord b2 st2 none now2)] from rfl, foldl_overwrite]
      rw [regGet_regSet_ne _ id2 id1 _ (Ne.symm hne), regGet_regSet_self]
      simp [updStatusRecord_status]
    · rw [ef1, e2]
      unfold flushQueue
      rw [show ([regSet (regSet sys.file id1 (updStatusRecord b1 st1 none now1)) id2
          (updStatusRecord b2 st2 none now2)] : List (List (Str × Bot))) =
          [] ++ [regSet (regSet sys.file id1 (updStatusRecord b1 st1 none now1)) id2
          (updStatusRecord b2 st2 none now2)] from rfl, foldl_overwrite]
      rw [regGet_regSet_self]
      simp [updStatusRecord_status]
  · intro hne
    have e3 : updateBotStatusFile
        (RegSys.mk sys.file
          (sys.queue ++ [regSet sys.file id1 (updStatusRecord b1 st1 none now1)]))
        id2 st2 none now2 =
        RegSys.mk sys.file
          ((sys.queue ++ [regSet sys.file id1 (updStatusRecord b1 st1 none now1)]) ++
           [regSet sys.file id2 (updStatusRecord b2 st2 none now2)]) := by
      unfold updateBotStatusFile loadRegistry
      rw [h2]
      rfl
    constructor
    · rw [e1, e3]
      unfold flushQueue
      rw [foldl_overwrite]
      rw [regGet_regSet_self]
      simp [updStatusRecord_status]
    · rw [e1, e3]
      unfold flushQueue
      rw [foldl_overwrite]
      rw [regGet_regSet_ne sys.file id2 id1 _ (Ne.symm hne), h1]
  · rw [ef1, e2s]
    unfold flushQueue
    rw [show ([regSet (regSet sys.file id1 (updStatusRecord b1 st1 none now1)) id1
        (updStatusRecord (updStatusRecord b1 st1 none now1) st2 none now2)] :
        List (List (Str × Bot))) =
        [] ++ [regSet (regSet sys.file id1 (updStatusRecord b1 st1 none now1)) id1
        (updStatusRecord (updStatusRecord b1 st1 none now1) st2 none now2)] from rfl,
      foldl_overwrite]
    rw [regGet_regSet_self]
  · rw [e1, e3s]
    unfold flushQueue
    rw [foldl_overwrite]
    rw [regGet_regSet_self]
  · intro hs1 hs2
    simp [updStatusRecord_hasBeenStarted, hs1, hs2]

/-- Witness for C8: the two concrete bots exercise both schedules for
different bots and both schedules for the same bot `"a"` (first update
`running`, second `stopped`): sequentially the `hasBeenStarted` mark
survives, concurrently bot `a` loses it (its original record has none). -/
theorem claim8_registry_write_queue_witness :
    ((regGet (flushQueue (updateBotStatusFile
        (flushQueue (updateBotStatusFile c8Sys (str "a") BotStatus.running none (str "t1")))
        (str "b") BotStatus.stopped none (str "t2"))).file (str "a")).map Bot.status =
          some BotStatus.running ∧
     (regGet (flushQueue (updateBotStatusFile
        (flushQueue (updateBotStatusFile c8Sys (str "a") BotStatus.running none (str "t1")))
        (str "b") BotStatus.stopped none (str "t2"))).file (str "b")).map Bot.status =
          some BotStatus.stopped) ∧
    ((regGet (flushQueue (updateBotStatusFile
        (updateBotStatusFile c8Sys (str "a") BotStatus.running none (str "t1"))
        (str "b") BotStatus.stopped none (str "t2"))).file (str "b")).map Bot.status =
          some BotStatus.stopped ∧
     regGet (flushQueue (updateBotStatusFile
        (updateBotStatusFile c8Sys (str "a") BotStatus.running none (str "t1"))
        (str "b") BotStatus.stopped none (str "t2"))).file (str "a") = some c8BotA) ∧
    regGet (flushQueue (updateBotStatusFile
        (flushQueue (updateBotStatusFile c8Sys (str "a") BotStatus.running none (str "t1")))
        (str "a") BotStatus.stopped none (str "t2"))).file (str "a")
      = some (updStatusRecord (updStatusRecord c8BotA BotStatus.running none (str "t1"))
          BotStatus.stopped none (str "t2")) ∧
    regGet (flushQueue (updateBotStatusFile
        (updateBotStatusFile c8Sys (str "a") BotStatus.running none (str "t1"))
        (str "a") BotStatus.stopped none (str "t2"))).file (str "a")
      = some (updStatusRecord c8BotA BotStatus.stopped none (str "t2")) ∧
    ((updStatusRecord (updStatusRecord c8BotA BotStatus.running none (str "t1"))
        BotStatus.stopped none (str "t2")).hasBeenStarted = some true ∧
     (updStatusRecord c8BotA BotStatus.stopped none (str "t2")).hasBeenStarted
        = c8BotA.hasBeenStarted) :=
  (fun h => ⟨h.1 (by decide), h.2.1 (by decide), h.2.2.1, h.2.2.2.1,
    h.2.2.2.2 rfl (by decide)⟩)
    (claim8_registry_write_queue c8Sys (str "a") (str "b") (str "t1") (str "t2")
      BotStatus.running BotStatus.stopped c8BotA c8BotB rfl rfl)

end BotMgr
